import Mathlib

/-!
# A verification development for the `alpha` tree-walking interpreter

This file is a shallow embedding, in Lean 4, of the core of the `alpha`
scripting-language interpreter (a Rust crate: tokenizer, recursive-descent
parser, tree-walking evaluator over a chain of shared mutable environments,
promises, and a native-function table).

Conventions of the embedding:

* Rust `f64` numbers are modelled as `ℚ`.  Every comparison and arithmetic
  operation used by the claims acts on small integer values, on which `f64`
  arithmetic is exact, so the rational model agrees with the source on the
  whole domain exercised here.  `f64 as usize` casts (truncation towards
  zero, saturating at `0` for negative values) are modelled by `f64ToUsize`.
* `Arc<Mutex<Environment>>` handles are modelled by indices into an explicit
  heap of environment nodes (`St.envs`); sharing and interior mutability
  become index aliasing plus functional update of the heap.
* Fallible evaluation returns `Out Value`; Rust panics (slice-index panics,
  `unwrap` failures, polling a completed future) are the `Out.crash`
  outcome, and fuel exhaustion of the model is `Out.timeout`.
* The evaluator `evaluate` is indexed by fuel; each recursion level uses the
  evaluator at the previous fuel, threaded as an explicit function argument
  through the non-recursive helper combinators (`execBlockWith`, ...), which
  mirror the corresponding `Interpreter` methods of `src/interpreter/mod.rs`.
-/

namespace Alpha

/-- Token kinds, from `src/tokenizer/mod.rs` (`enum TokenType`), including the
source's spelling `IDENTIfIER`. -/
inductive TokenType where
  | LeftParen | RightParen | LeftBrace | RightBrace | LeftBracket | RightBracket
  | Colon | Modulo | Comma | Dict | Dot | Minus | Plus | Semicolon | Slash | Star
  | Bang | BandEqual | Equal | EqualEqual | Greater | GreaterEqual | Less | LessEqual
  | IDENTIfIER | STRING | Number
  | And | Class | New | Else | False | Fun | For | If | Nil | Or | Return
  | Super | True | Try | Catch | Var | While | Eof | Import | Async | Await
deriving DecidableEq, Repr

/-- `struct Token` from `src/tokenizer/mod.rs`: kind, lexeme, optional literal
payload, 1-based line. -/
structure Token where
  token_type : TokenType
  lexeme : String
  literal : Option String
  line : Nat
deriving DecidableEq, Repr

/-- The expression tree, from `src/parser/mod.rs` (`enum Expr`).  The
`TryCatch` struct's three fields are inlined into the constructor. -/
inductive Expr where
  | Binary (left : Expr) (op : Token) (right : Expr)
  | Logical (left : Expr) (op : Token) (right : Expr)
  | Grouping (e : Expr)
  | Literal (tok : Token) (value : String)
  | Array (elements : List Expr)
  | Dictionary (elements : List (Expr × Expr))
  | Unary (op : Token) (e : Expr)
  | Nil
  | Variable (name : Token)
  | Assign (name : Token) (value : Expr)
  | Let (name : Token) (init : Expr)
  | Block (statements : List Expr)
  | Function (name : Token) (params : List Token) (body : Expr)
  | AsyncFunction (name : Token) (params : List Token) (body : Expr)
  | Class (name : Token) (methods : List Expr)
  | Call (owner : Option Expr) (callee : Expr) (args : List Expr)
  | Await (e : Expr)
  | If (cond : Expr) (thenB : Expr) (elseB : Expr)
  | While (cond : Expr) (body : Expr)
  | For (init : Expr) (cond : Expr) (inc : Expr) (body : Expr)
  | Import (path : Expr)
  | Return (keyword : Token) (value : Expr)
  | Get (object : Expr) (name : Expr)
  | Set (object : Token) (name : Expr) (value : Expr)
  | TryCatch (try_block : Expr) (catch_param : String) (catch_block : Expr)
deriving Repr

/-- Runtime values, from `src/interpreter/value.rs` (`enum Value`).
`Arc<Mutex<Environment>>` in `Instance` and the socket/server/promise handles
become indices (into `St.envs`, the promise list, or an abstract handle
space). -/
inductive Value where
  | Number (q : ℚ)
  | String (s : String)
  | Boolean (b : Bool)
  | NativeFunction (name : String) (arity : Nat)
  | Promise (id : Nat)
  | Function (name : String) (params : List String) (body : Expr)
  | AsyncFunction (name : String) (params : List String) (body : Expr)
  | Class (name : String) (methods : List (String × Value))
  | Instance (name : String) (env : Nat)
  | Array (elements : List Value)
  | Dictionary (entries : List (String × Value))
  | Socket (id : Nat)
  | TlsSocket (id : Nat)
  | Server (id : Nat)
  | Nil
deriving Repr

/-- The runtime-error kinds of `src/error/mod.rs` (`enum RuntimeErrorKind`)
that the evaluator can produce, including the `Return` pseudo-error and
`PromiseRejected` (referenced by `Interpreter::evaluate`'s `Await` case). -/
inductive RKind where
  | InvalidLiteral (line : Nat)
  | InvalidBinaryOperator (line : Nat)
  | InvalidUnaryOperator (line : Nat)
  | InvalidLogicalOperator (line : Nat)
  | OperandsMustBeNumbersOrStrings (line : Nat)
  | OperandsMustBeNumber (line : Nat)
  | InvalidParametsCount (n : Nat)
  | UndefinedVariable (line : Nat) (name : String)
  | DivisionByZero (line : Nat)
  | UndefinedFunction (line : Nat)
  | ExpextedArgument (line : Nat) (got : Nat) (expected : Nat)
  | RuntimeError (line : Nat) (msg : String)
  | InvalidImport (line : Nat) (path : String)
  | InvalidClassMethod (line : Nat)
  | InvalidDictionaryKey (line : Nat)
  | InvalidSet (line : Nat)
  | InvalidGet (line : Nat)
  | InvalidCall (line : Nat)
  | PromiseRejected (line : Nat)
  | Return (v : Value)
deriving Repr

/-- Outcome of one evaluation step: a value, a runtime error, fuel exhaustion
of the model (`timeout`), or a Rust panic (`crash`). -/
inductive Out (α : Type) where
  | ok (a : α)
  | err (e : RKind)
  | timeout
  | crash
deriving Repr

/-- Promise states, from `src/interpreter/value.rs` (`enum PromiseState`).
A pending promise stores the data captured by `execute_async_call` when the
future was built (environment handle, callee, arguments, line); `consumed`
models whether the boxed future has already been driven to completion by
`block_on` (`await` never rewrites the enum variant, it only polls the stored
future, so a second `await` polls a completed future). -/
inductive PromState where
  | Pending (env : Nat) (callee : Value) (args : List Value) (line : Nat) (consumed : Bool)
  | Fulfilled (v : Value)
  | Rejected (e : RKind)
deriving Repr

/-- Association-list lookup, modelling `HashMap::get`. -/
def aget {α : Type} : List (String × α) → String → Option α
  | [], _ => none
  | (k, v) :: rest, key => if k = key then some v else aget rest key

/-- Association-list insert-or-replace, modelling `HashMap::insert`. -/
def aset {α : Type} : List (String × α) → String → α → List (String × α)
  | [], key, v => [(key, v)]
  | (k, w) :: rest, key, v =>
      if k = key then (k, v) :: rest else (k, w) :: aset rest key v

/-- One node of the environment heap: the operative fields of
`struct Environment` (`src/interpreter/enviroment.rs`): own bindings, an
optional enclosing node, the native table, and the module registry (module
name to the module environment's heap index; a `Module`'s `name`/`path`
fields play no part in lookup and are dropped).  `base_path` is a host
filesystem detail and is dropped. -/
structure EnvNode where
  values : List (String × Value)
  enclosing : Option Nat
  natives : List (String × Nat)
  modules : List (String × Nat)
deriving Repr

/-- Interpreter state: the environment heap, the promise store, the current
environment handle (`Interpreter::environment`) and current line
(`Interpreter::line`). -/
structure St where
  envs : List EnvNode
  promises : List PromState
  current : Nat
  line : Nat
deriving Repr

/-- Fetch a heap node. -/
def getEnv (envs : List EnvNode) (i : Nat) : Option EnvNode :=
  envs.get? i

/-- Update the heap node at `i`. -/
def setEnv (envs : List EnvNode) (i : Nat) (f : EnvNode → EnvNode) : List EnvNode :=
  match getEnv envs i with
  | some n => envs.set i (f n)
  | none => envs

/-- `Environment::define`: insert into the node's own bindings. -/
def envDefine (envs : List EnvNode) (i : Nat) (name : String) (v : Value) : List EnvNode :=
  setEnv envs i (fun n => { n with values := aset n.values name v })

/-- The module-registry scan of `Environment::get_from_module`: walk the
registered modules in order and return the first module whose top-level
bindings contain the name. -/
def envGetFromModule (envs : List EnvNode) : List (String × Nat) → String → Option Value
  | [], _ => none
  | (_, mid) :: rest, name =>
      match getEnv envs mid with
      | some m =>
          match aget m.values name with
          | some v => some v
          | none => envGetFromModule envs rest name
      | none => envGetFromModule envs rest name

/-- `Environment::get`, heap-lifted, with a gas bound on the length of the
enclosing chain (chains built by the interpreter are strictly decreasing heap
indices, so `envs.length` gas is always enough).  The per-node order is the
source's: module registry first, then the native table, then own bindings,
then the enclosing node; an `Err(UndefinedVariable ...)` result is `none`. -/
def envGetAux (envs : List EnvNode) : Nat → Nat → String → Option Value
  | 0, _, _ => none
  | gas + 1, i, name =>
      match getEnv envs i with
      | none => none
      | some node =>
          match envGetFromModule envs node.modules name with
          | some v => some v
          | none =>
              match aget node.natives name with
              | some arity => some (.NativeFunction name arity)
              | none =>
                  match aget node.values name with
                  | some v => some v
                  | none =>
                      match node.enclosing with
                      | some j => envGetAux envs gas j name
                      | none => none

/-- `Environment::get` at adequate gas. -/
def envGet (envs : List EnvNode) (i : Nat) (name : String) : Option Value :=
  envGetAux envs (envs.length + 1) i name

/-- `Environment::assign`, heap-lifted with the same gas convention: rebind
the name at the innermost node whose own bindings contain it; `none` models
`Err(UndefinedVariable ...)`. -/
def envAssignAux (envs : List EnvNode) : Nat → Nat → String → Value → Option (List EnvNode)
  | 0, _, _, _ => none
  | gas + 1, i, name, v =>
      match getEnv envs i with
      | none => none
      | some node =>
          if (aget node.values name).isSome then
            some (envDefine envs i name v)
          else
            match node.enclosing with
            | some j => envAssignAux envs gas j name v
            | none => none

/-- `Environment::assign` at adequate gas. -/
def envAssign (envs : List EnvNode) (i : Nat) (name : String) (v : Value) :
    Option (List EnvNode) :=
  envAssignAux envs (envs.length + 1) i name v

/-- `Environment::new_with_enclosing`: allocate a fresh node (empty bindings,
natives and modules) whose enclosing pointer is `encl`; returns the new state
and the new node's handle. -/
def pushEnv (st : St) (encl : Nat) : St × Nat :=
  ({ st with
      envs := st.envs ++ [{ values := [], enclosing := some encl,
                            natives := [], modules := [] }] },
   st.envs.length)

/-- Decimal parsing helper: the numeric value of a digit list (most
significant first); `none` on a non-digit. -/
def digitsValAux : List Char → ℕ → Option ℕ
  | [], acc => some acc
  | c :: rest, acc =>
      if c.isDigit then digitsValAux rest (acc * 10 + (c.toNat - 48)) else none

/-- A non-empty all-digit list's value. -/
def digitsVal : List Char → Option ℕ
  | [] => none
  | c :: rest => digitsValAux (c :: rest) 0

/-- Split a character list at the first dot. -/
def splitDot : List Char → List Char × Option (List Char)
  | [] => ([], none)
  | c :: rest =>
      if c = '.' then ([], some rest)
      else
        let (l, r) := splitDot rest
        (c :: l, r)

/-- Models `str::parse::<f64>` on the literal payloads the tokenizer produces
(non-negative decimals `digits` or `digits.digits`); every other string is a
parse failure, which `Expr::Literal` evaluation turns into an `unwrap`
panic. -/
def parseNum (s : String) : Option ℚ :=
  match splitDot s.toList with
  | (ip, none) =>
      match digitsVal ip with
      | some n => some (n : ℚ)
      | none => none
  | (ip, some fcs) =>
      match digitsVal ip, digitsVal fcs with
      | some n, some f => some ((n : ℚ) + (f : ℚ) / ((10 : ℚ) ^ fcs.length))
      | _, _ => none

/-- `f64::EPSILON`, the comparison threshold of `Interpreter::is_equal`. -/
def EPSILON : ℚ := 1 / 2 ^ 52

/-- Rust's `f64 as usize` cast on the values reachable here: truncation
towards zero, saturating at `0` for negative inputs. -/
def f64ToUsize (q : ℚ) : ℕ :=
  if q < 0 then 0 else ⌊q⌋.toNat

/-- Truncation towards zero, for `f64 %`. -/
def qTrunc (q : ℚ) : ℤ :=
  if q < 0 then -((-q).floor) else q.floor

/-- `f64 %` (Rust remainder: same sign as the dividend). -/
def qMod (a b : ℚ) : ℚ :=
  a - b * (qTrunc (a / b) : ℚ)

/-- `Interpreter::is_truthy` (`src/interpreter/mod.rs`). -/
def is_truthy : Value → Bool
  | .Nil => false
  | .Boolean b => b
  | .String _ => true
  | .Number n => decide (n ≠ 0)
  | _ => true

/-- `Interpreter::is_equal` (`src/interpreter/mod.rs`): the comparison behind
the language's `==`/`!=`.  Numbers compare within `f64::EPSILON`; strings,
booleans and nil structurally; every other pair of values falls through to
the catch-all arm and is unequal. -/
def is_equal : Value → Value → Bool
  | .Number a, .Number b => decide (|a - b| < EPSILON)
  | .String a, .String b => a = b
  | .Boolean a, .Boolean b => a = b
  | .Nil, .Nil => true
  | _, _ => false

mutual

/-- `Value::to_string` (`src/interpreter/value.rs`).  Integer-valued numbers
render exactly as Rust's `f64` `Display`; the non-integer rendering is an
approximation (`num/den`), unused by the claims. -/
def Value.to_string : Value → String
  | .Number q => if q.den = 1 then toString q.num else toString q.num ++ "/" ++ toString q.den
  | .String s => s
  | .Boolean b => if b then "true" else "false"
  | .Nil => "nil"
  | .Function name _ _ => name
  | .NativeFunction name _ => name
  | .Class name _ => name
  | .Instance name _ => name
  | .Array arr => "[" ++ listToStringComma arr ++ "]"
  | .Dictionary d => "\x7b" ++ dictToStringComma d ++ "\x7d"
  | .Socket _ => "socket"
  | .TlsSocket _ => "tls socket"
  | .Server _ => "server"
  | .AsyncFunction name _ _ => name
  | .Promise _ => "promise"

/-- Comma-joined `to_string` of array elements. -/
def listToStringComma : List Value → String
  | [] => ""
  | [v] => v.to_string
  | v :: rest => v.to_string ++ ", " ++ listToStringComma rest

/-- Comma-joined `key: value` rendering of dictionary entries. -/
def dictToStringComma : List (String × Value) → String
  | [] => ""
  | [(k, v)] => k ++ ": " ++ v.to_string
  | (k, v) :: rest => k ++ ": " ++ v.to_string ++ ", " ++ dictToStringComma rest

end

mutual

/-- `impl fmt::Display for Value` (`src/interpreter/value.rs`); the
`Instance` arm's debug dump of the member environment is abbreviated. -/
def Value.display : Value → String
  | .Number q => if q.den = 1 then toString q.num else toString q.num ++ "/" ++ toString q.den
  | .String s => s
  | .Boolean b => if b then "true" else "false"
  | .Nil => "nil"
  | .Function name _ _ => "<fn " ++ name ++ ">"
  | .AsyncFunction name _ _ => "<async fn " ++ name ++ ">"
  | .NativeFunction name _ => "<native fn " ++ name ++ ">"
  | .Class name _ => "<class " ++ name ++ ">"
  | .Instance name _ => "<instance " ++ name ++ ">"
  | .Array arr => "[" ++ listDisplayComma arr ++ "]"
  | .Dictionary d => "\x7b" ++ dictDisplayComma d ++ "\x7d"
  | .Socket _ => "socket"
  | .TlsSocket _ => "tls socket"
  | .Server _ => "server"
  | .Promise _ => "promise"

/-- Comma-joined `display` of array elements. -/
def listDisplayComma : List Value → String
  | [] => ""
  | [v] => v.display
  | v :: rest => v.display ++ ", " ++ listDisplayComma rest

/-- Comma-joined `key: value` display of dictionary entries. -/
def dictDisplayComma : List (String × Value) → String
  | [] => ""
  | [(k, v)] => k ++ ": " ++ v.display
  | (k, v) :: rest => k ++ ": " ++ v.display ++ ", " ++ dictDisplayComma rest

end

/-- `impl fmt::Display for RuntimeErrorKind` (`src/error/mod.rs`), as wrapped
by `InterpreterError`'s `Display`; this is the string `execute_try_catch`
binds to the catch parameter. -/
def errDisplay : RKind → String
  | .InvalidLiteral line => "[line " ++ toString line ++ "] Error: Invalid literal."
  | .InvalidBinaryOperator line => "[line " ++ toString line ++ "] Error: Invalid binary operator."
  | .InvalidUnaryOperator line => "[line " ++ toString line ++ "] Error: Invalid unary operator."
  | .InvalidLogicalOperator line => "[line " ++ toString line ++ "] Error: Invalid logical operator."
  | .OperandsMustBeNumbersOrStrings line =>
      "[line " ++ toString line ++ "] Error: Operands must be two numbers or two strings."
  | .OperandsMustBeNumber line => "[line " ++ toString line ++ "] Error: Operand must be a number."
  | .InvalidParametsCount line => "[line " ++ toString line ++ "] Error: Invalid argument count."
  | .UndefinedVariable line name =>
      "[line " ++ toString line ++ "] Error: Undefined variable " ++ name ++ "."
  | .DivisionByZero line => "[line " ++ toString line ++ "] Error: Division by zero."
  | .UndefinedFunction line => "[line " ++ toString line ++ "] Error: Undefined function."
  | .ExpextedArgument line a b =>
      "[line " ++ toString line ++ "] Error: Expected " ++ toString a ++
        " arguments but got " ++ toString b
  | .RuntimeError line msg => "[line " ++ toString line ++ "] Error: " ++ msg
  | .InvalidImport line path =>
      "[line " ++ toString line ++ "] Error: Invalid import module '" ++ path ++ "'"
  | .InvalidClassMethod line => "[line " ++ toString line ++ "] Error: Invalid class method."
  | .InvalidDictionaryKey line => "[line " ++ toString line ++ "] Error: Invalid dictionary key."
  | .InvalidSet line => "[line " ++ toString line ++ "] Error: Invalid set."
  | .InvalidGet line => "[line " ++ toString line ++ "] Error: Invalid get."
  | .InvalidCall line => "[line " ++ toString line ++ "] Error: Invalid call."
  | .PromiseRejected line => "[line " ++ toString line ++ "] Error: Promise rejected."
  | .Return v => "Return unwind the call stack: " ++ v.display

/-- `Interpreter::add`: numbers add, strings concatenate, any mixed pair
string-concatenates the `to_string`s. -/
def addV : Value → Value → Out Value
  | .Number a, .Number b => .ok (.Number (a + b))
  | .String a, .String b => .ok (.String (a ++ b))
  | a, b => .ok (.String (a.to_string ++ b.to_string))

/-- `Interpreter::subtract`. -/
def subtractV (line : Nat) : Value → Value → Out Value
  | .Number a, .Number b => .ok (.Number (a - b))
  | _, _ => .err (.OperandsMustBeNumber line)

/-- `Interpreter::multiply`. -/
def multiplyV (line : Nat) : Value → Value → Out Value
  | .Number a, .Number b => .ok (.Number (a * b))
  | _, _ => .err (.OperandsMustBeNumbersOrStrings line)

/-- `Interpreter::modulo`. -/
def moduloV (line : Nat) : Value → Value → Out Value
  | .Number a, .Number b =>
      if b = 0 then .err (.DivisionByZero line) else .ok (.Number (qMod a b))
  | _, _ => .err (.OperandsMustBeNumber line)

/-- `Interpreter::divide`. -/
def divideV (line : Nat) : Value → Value → Out Value
  | .Number a, .Number b =>
      if b = 0 then .err (.DivisionByZero line) else .ok (.Number (a / b))
  | _, _ => .err (.OperandsMustBeNumber line)

/-- `Interpreter::greater`. -/
def greaterV (line : Nat) : Value → Value → Out Value
  | .Number a, .Number b => .ok (.Boolean (decide (a > b)))
  | _, _ => .err (.OperandsMustBeNumber line)

/-- `Interpreter::greater_equal`. -/
def greaterEqualV (line : Nat) : Value → Value → Out Value
  | .Number a, .Number b => .ok (.Boolean (decide (a ≥ b)))
  | _, _ => .err (.OperandsMustBeNumber line)

/-- `Interpreter::less`. -/
def lessV (line : Nat) : Value → Value → Out Value
  | .Number a, .Number b => .ok (.Boolean (decide (a < b)))
  | _, _ => .err (.OperandsMustBeNumber line)

/-- `Interpreter::less_equal`. -/
def lessEqualV (line : Nat) : Value → Value → Out Value
  | .Number a, .Number b => .ok (.Boolean (decide (a ≤ b)))
  | _, _ => .err (.OperandsMustBeNumber line)

/-- `Interpreter::equal`. -/
def equalV (l r : Value) : Out Value :=
  .ok (.Boolean (is_equal l r))

/-- `Interpreter::not_equal`. -/
def notEqualV (l r : Value) : Out Value :=
  .ok (.Boolean (! is_equal l r))

/-- `Interpreter::negate`. -/
def negateV (line : Nat) : Value → Out Value
  | .Number n => .ok (.Number (-n))
  | _ => .err (.OperandsMustBeNumber line)

/-- `Interpreter::not`. -/
def notV (v : Value) : Out Value :=
  .ok (.Boolean (! is_truthy v))

/-- The binary-operator dispatch of `Interpreter::evaluate`'s `Expr::Binary`
case.  `selfLine` is `self.line` (used by the operand-type errors), `opLine`
the operator token's line (used by `InvalidBinaryOperator`). -/
def binDispatch (selfLine opLine : Nat) (op : TokenType) (l r : Value) : Out Value :=
  match op with
  | .Plus => addV l r
  | .Minus => subtractV selfLine l r
  | .Star => multiplyV selfLine l r
  | .Modulo => moduloV selfLine l r
  | .Slash => divideV selfLine l r
  | .Greater => greaterV selfLine l r
  | .GreaterEqual => greaterEqualV selfLine l r
  | .Less => lessV selfLine l r
  | .LessEqual => lessEqualV selfLine l r
  | .EqualEqual => equalV l r
  | .BandEqual => notEqualV l r
  | _ => .err (.InvalidBinaryOperator opLine)

/-- The receiver-shape dispatch of `Interpreter::evaluate`'s `Expr::Get`
case, after the object and the name part have been evaluated.  For an array
receiver the only guard is `index < values.len() as f64`: a negative index
passes it and is cast (saturating) to `0`; `values[index as usize]` on an
empty array is a Rust index panic (`crash`). -/
def getDispatch (st : St) (obj nv : Value) : St × Out Value :=
  match obj with
  | .Instance _ _ =>
      match nv with
      | .String fieldName =>
          match envGet st.envs st.current fieldName with
          | some v => (st, .ok v)
          | none => (st, .err (.InvalidGet st.line))
      | _ => (st, .err (.InvalidGet st.line))
  | .Array vals =>
      match nv with
      | .Number idx =>
          if idx < (vals.length : ℚ) then
            match vals.get? (f64ToUsize idx) with
            | some v => (st, .ok v)
            | none => (st, .crash)
          else (st, .err (.InvalidGet st.line))
      | _ => (st, .err (.InvalidGet st.line))
  | .Dictionary entries =>
      match nv with
      | .String k =>
          match aget entries k with
          | some v => (st, .ok v)
          | none => (st, .err (.InvalidGet st.line))
      | _ => (st, .err (.InvalidGet st.line))
  | _ => (st, .err (.InvalidGet st.line))

/-- The receiver-shape dispatch of `Interpreter::evaluate`'s `Expr::Set`
case, after the object has been fetched from the environment and the value
and name parts evaluated.  Array and dictionary receivers mutate a local
copy and rebind the variable (`value_name`) in the environment chain; an
instance receiver assigns the field name in the current chain. -/
def setDispatch (st : St) (varName : String) (obj v nv : Value) : St × Out Value :=
  match obj with
  | .Instance _ _ =>
      match nv with
      | .String fieldName =>
          match envAssign st.envs st.current fieldName v with
          | some envs2 => ({ st with envs := envs2 }, .ok v)
          | none => (st, .err (.UndefinedVariable 0 fieldName))
      | _ => (st, .err (.InvalidSet st.line))
  | .Array vals =>
      match nv with
      | .Number idx =>
          if idx < (vals.length : ℚ) then
            if f64ToUsize idx < vals.length then
              match envAssign st.envs st.current varName (.Array (vals.set (f64ToUsize idx) v)) with
              | some envs2 => ({ st with envs := envs2 }, .ok v)
              | none => (st, .err (.UndefinedVariable 0 varName))
            else (st, .crash)
          else (st, .err (.InvalidSet st.line))
      | _ => (st, .err (.InvalidSet st.line))
  | .Dictionary entries =>
      match nv with
      | .String k =>
          match envAssign st.envs st.current varName (.Dictionary (aset entries k v)) with
          | some envs2 => ({ st with envs := envs2 }, .ok v)
          | none => (st, .err (.UndefinedVariable 0 varName))
      | _ => (st, .err (.InvalidSet st.line))
  | _ => (st, .err (.InvalidSet st.line))

/-- The type of the fuel-instantiated evaluator, threaded through the
helper combinators. -/
abbrev EvalF := St → Expr → St × Out Value

/-- Left-to-right evaluation of an expression list (array literals, call
arguments), stopping at the first non-value outcome. -/
def evalListWith (ev : EvalF) : St → List Expr → St × Out (List Value)
  | st, [] => (st, .ok [])
  | st, e :: rest =>
      match ev st e with
      | (st1, .ok v) =>
          match evalListWith ev st1 rest with
          | (st2, .ok vs) => (st2, .ok (v :: vs))
          | (st2, .err e2) => (st2, .err e2)
          | (st2, .timeout) => (st2, .timeout)
          | (st2, .crash) => (st2, .crash)
      | (st1, .err e1) => (st1, .err e1)
      | (st1, .timeout) => (st1, .timeout)
      | (st1, .crash) => (st1, .crash)

/-- `Expr::Dictionary` evaluation: key then value per entry, in order; a
non-string key is `InvalidDictionaryKey` (after both were evaluated). -/
def evalDictWith (ev : EvalF) : St → List (Expr × Expr) → List (String × Value) → St × Out Value
  | st, [], acc => (st, .ok (.Dictionary acc))
  | st, (k, v) :: rest, acc =>
      match ev st k with
      | (st1, .ok kv) =>
          match ev st1 v with
          | (st2, .ok vv) =>
              match kv with
              | .String ks => evalDictWith ev st2 rest (aset acc ks vv)
              | _ => (st2, .err (.InvalidDictionaryKey st2.line))
          | r2 => r2
      | r1 => r1

/-- The statement loop of `Interpreter::execute_block`: `prev` is the saved
`self.environment`.  A `Return` pseudo-error from a statement is converted
into the block's result on the spot (without restoring `prev`); other
errors propagate (also without restoring); normal completion restores
`prev` and yields the last statement's value. -/
def execBlockGo (ev : EvalF) : St → List Expr → Value → Nat → St × Out Value
  | st, [], res, prev => ({ st with current := prev }, .ok res)
  | st, s :: rest, _res, prev =>
      match ev st s with
      | (st1, .ok v) => execBlockGo ev st1 rest v prev
      | (st1, .err (.Return v)) => (st1, .ok v)
      | (st1, .err e) => (st1, .err e)
      | (st1, .timeout) => (st1, .timeout)
      | (st1, .crash) => (st1, .crash)

/-- `Interpreter::execute_block`: install `envId` as the current
environment, run the statements, see `execBlockGo` for the exit paths. -/
def execBlockWith (ev : EvalF) (st : St) (statements : List Expr) (envId : Nat) : St × Out Value :=
  execBlockGo ev { st with current := envId } statements .Nil st.current

/-- The loop of `Expr::While` evaluation: `cv` is the last condition value,
`res` the last body value (initially `Nil`); the extra `Nat` is model fuel
for the iteration count. -/
def whileGoWith (ev : EvalF) (cond body : Expr) : Nat → St → Value → Value → St × Out Value
  | 0, st, cv, res => if is_truthy cv then (st, .timeout) else (st, .ok res)
  | k + 1, st, cv, res =>
      if is_truthy cv then
        match ev st body with
        | (st1, .ok bv) =>
            match ev st1 cond with
            | (st2, .ok cv2) => whileGoWith ev cond body k st2 cv2 bv
            | r2 => r2
        | r1 => r1
      else (st, .ok res)

/-- The loop of `Expr::For` evaluation: body, then increment, then the
condition for the next round. -/
def forGoWith (ev : EvalF) (cond inc body : Expr) : Nat → St → Value → Value → St × Out Value
  | 0, st, cv, res => if is_truthy cv then (st, .timeout) else (st, .ok res)
  | k + 1, st, cv, res =>
      if is_truthy cv then
        match ev st body with
        | (st1, .ok bv) =>
            match ev st1 inc with
            | (st2, .ok _) =>
                match ev st2 cond with
                | (st3, .ok cv2) => forGoWith ev cond inc body k st3 cv2 bv
                | r3 => r3
            | r2 => r2
        | r1 => r1
      else (st, .ok res)

/-- Positionally bind parameters to arguments (`params.iter().zip(args)`:
the shorter list wins). -/
def defineParamsList (envs : List EnvNode) (i : Nat) : List String → List Value → List EnvNode
  | [], _ => envs
  | _, [] => envs
  | p :: ps, a :: rest => defineParamsList (envDefine envs i p a) i ps rest

/-- Install every entry of a class's method table into the environment. -/
def defineMethods (envs : List EnvNode) (i : Nat) : List (String × Value) → List EnvNode
  | [] => envs
  | (n, v) :: rest => defineMethods (envDefine envs i n v) i rest

/-- `Interpreter::execute_call` (`src/interpreter/mod.rs`).  Plain (and,
through this synchronous path, async) functions get a fresh child
environment with the parameters bound and run their body block there; a
non-block body runs in the unchanged current environment.  A native call is
arity-checked (`NativeFunction::call`); its host effect is outside the pure
model, so a passing native call yields `Nil` (no claim depends on a native's
result).  For a class callee, the `_construct` lookup guards parameter
binding, the `this` binding, construct-body execution and the
method-installation loop alike; the instance is returned either way. -/
def execCallWith (ev : EvalF) (st : St) (_owner : Option Value) (callee : Value)
    (args : List Value) : St × Out Value :=
  match callee with
  | .Function _ params body =>
      if args.length ≠ params.length then
        (st, .err (.ExpextedArgument st.line args.length params.length))
      else
        let (st1, envId) := pushEnv st st.current
        let st2 := { st1 with envs := defineParamsList st1.envs envId params args }
        match body with
        | .Block statements => execBlockWith ev st2 statements envId
        | other => ev st2 other
  | .AsyncFunction _ params body =>
      if args.length ≠ params.length then
        (st, .err (.ExpextedArgument st.line args.length params.length))
      else
        let (st1, envId) := pushEnv st st.current
        let st2 := { st1 with envs := defineParamsList st1.envs envId params args }
        match body with
        | .Block statements => execBlockWith ev st2 statements envId
        | other => ev st2 other
  | .NativeFunction _ arity =>
      if args.length ≠ arity then (st, .err (.InvalidParametsCount arity))
      else (st, .ok .Nil)
  | .Class cname methods =>
      let (st1, envId) := pushEnv st st.current
      match aget methods "_construct" with
      | some m =>
          match m with
          | .Function _ params body =>
              let st2 := { st1 with envs := defineParamsList st1.envs envId params args }
              let st3 := { st2 with
                  envs := envDefine st2.envs envId "this" (.Instance cname envId) }
              match execBlockWith ev st3 [body] envId with
              | (st4, .ok _) =>
                  ({ st4 with envs := defineMethods st4.envs envId methods },
                   .ok (.Instance cname envId))
              | r4 => r4
          | _ => (st1, .err (.InvalidClassMethod st.line))
      | none => (st1, .ok (.Instance cname envId))
  | _ => (st, .err (.UndefinedFunction st.line))

/-- The body of the future built by `Interpreter::execute_async_call`, run
when `await` first polls it: arity check against the captured line, bind the
parameters directly into the captured call-site environment (no child
scope), then run the body in a fresh sub-interpreter sharing that
environment (`line` starts at 0); the outer interpreter's current
environment and line are untouched. -/
def execAsyncCallWith (ev : EvalF) (st : St) (penv : Nat) (callee : Value)
    (args : List Value) (pline outerCur outerLine : Nat) : St × Out Value :=
  match callee with
  | .AsyncFunction _ params body =>
      if args.length ≠ params.length then
        (st, .err (.ExpextedArgument pline args.length params.length))
      else
        let st1 := { st with envs := defineParamsList st.envs penv params args }
        let st2 := { st1 with current := penv, line := 0 }
        let (st3, r) :=
          match body with
          | .Block statements => execBlockWith ev st2 statements penv
          | other => ev st2 other
        ({ st3 with current := outerCur, line := outerLine }, r)
  | _ => (st, .err (.UndefinedFunction pline))

/-- `Interpreter::execute_try_catch`: on any error from the try body
(including a `Return` pseudo-error) a child of the pre-try environment is
created, the error's display string bound to the catch parameter, the catch
body evaluated there, and the pre-try environment restored. -/
def execTryCatchWith (ev : EvalF) (st : St) (tb : Expr) (cp : String) (cb : Expr) :
    St × Out Value :=
  let prev := st.current
  match ev st tb with
  | (st1, .ok v) => ({ st1 with current := prev }, .ok v)
  | (st1, .err e) =>
      let (st2, cid) := pushEnv st1 prev
      let st3 := { st2 with
          envs := envDefine st2.envs cid cp (.String (errDisplay e)), current := cid }
      let (st4, r) := ev st3 cb
      ({ st4 with current := prev }, r)
  | (st1, .timeout) => (st1, .timeout)
  | (st1, .crash) => (st1, .crash)

/-- Collect a class body's methods into the method table
(`class_methods.insert(name, function)`); `none` on a non-`Function`
member. -/
def collectMethods : List Expr → List (String × Value) → Option (List (String × Value))
  | [], acc => some acc
  | .Function name params body :: rest, acc =>
      collectMethods rest
        (aset acc name.lexeme (.Function name.lexeme (params.map Token.lexeme) body))
  | _ :: _, _ => none

/-- `Interpreter::evaluate` (`src/interpreter/mod.rs`), indexed by fuel;
every recursive evaluation uses the evaluator at the predecessor fuel
(fuel exhaustion is the `timeout` outcome, not a behaviour of the source). -/
def evaluate : Nat → St → Expr → St × Out Value
  | 0, st, _ => (st, .timeout)
  | fuel + 1, st, e =>
      match e with
      | .Literal tok value =>
          match tok.token_type with
          | .Number =>
              match parseNum value with
              | some q => (st, .ok (.Number q))
              | none => (st, .crash)
          | .STRING => (st, .ok (.String value))
          | .True => (st, .ok (.Boolean true))
          | .False => (st, .ok (.Boolean false))
          | .Nil => (st, .ok .Nil)
          | _ => (st, .err (.InvalidLiteral tok.line))
      | .Variable name =>
          match envGet st.envs st.current name.lexeme with
          | some v => (st, .ok v)
          | none => (st, .err (.UndefinedVariable st.line name.lexeme))
      | .Array elements =>
          match evalListWith (evaluate fuel) st elements with
          | (st1, .ok vs) => (st1, .ok (.Array vs))
          | (st1, .err e2) => (st1, .err e2)
          | (st1, .timeout) => (st1, .timeout)
          | (st1, .crash) => (st1, .crash)
      | .Dictionary pairs => evalDictWith (evaluate fuel) st pairs []
      | .Binary l op r =>
          match evaluate fuel st l with
          | (st1, .ok lv) =>
              match evaluate fuel st1 r with
              | (st2, .ok rv) => (st2, binDispatch st2.line op.line op.token_type lv rv)
              | r2 => r2
          | r1 => r1
      | .Unary op inner =>
          match evaluate fuel st inner with
          | (st1, .ok v) =>
              match op.token_type with
              | .Minus => (st1, negateV st1.line v)
              | .Bang => (st1, notV v)
              | _ => (st1, .err (.InvalidUnaryOperator op.line))
          | r1 => r1
      | .Assign name value =>
          match evaluate fuel st value with
          | (st1, .ok v) =>
              match envAssign st1.envs st1.current name.lexeme v with
              | some envs2 => ({ st1 with envs := envs2 }, .ok v)
              | none => (st1, .err (.UndefinedVariable 0 name.lexeme))
          | r1 => r1
      | .Set object name value =>
          match envGet st.envs st.current object.lexeme with
          | none => (st, .err (.UndefinedVariable st.line object.lexeme))
          | some obj =>
              match evaluate fuel st value with
              | (st1, .ok v) =>
                  match evaluate fuel st1 name with
                  | (st2, .ok nv) => setDispatch st2 object.lexeme obj v nv
                  | r2 => r2
              | r1 => r1
      | .Get object name =>
          match evaluate fuel st object with
          | (st1, .ok objv) =>
              match evaluate fuel st1 name with
              | (st2, .ok nv) => getDispatch st2 objv nv
              | r2 => r2
          | r1 => r1
      | .Let name init =>
          match evaluate fuel st init with
          | (st1, .ok v) =>
              ({ st1 with envs := envDefine st1.envs st1.current name.lexeme v }, .ok v)
          | r1 => r1
      | .Block statements =>
          let (st1, envId) := pushEnv st st.current
          execBlockWith (evaluate fuel) st1 statements envId
      | .Function name params body =>
          let fv := Value.Function name.lexeme (params.map Token.lexeme) body
          ({ st with envs := envDefine st.envs st.current name.lexeme fv }, .ok fv)
      | .AsyncFunction name params body =>
          let fv := Value.AsyncFunction name.lexeme (params.map Token.lexeme) body
          ({ st with envs := envDefine st.envs st.current name.lexeme fv }, .ok fv)
      | .Call owner callee args =>
          match evalListWith (evaluate fuel) st args with
          | (st1, .ok argv) =>
              match owner with
              | some oe =>
                  match evaluate fuel st1 oe with
                  | (st2, .ok ov) =>
                      match ov with
                      | .Instance iname envId =>
                          let prev := st2.current
                          match evaluate fuel { st2 with current := envId } callee with
                          | (st3, .ok cv) =>
                              let (st4, r) :=
                                execCallWith (evaluate fuel) st3
                                  (some (.Instance iname envId)) cv argv
                              ({ st4 with current := prev }, r)
                          | r3 => r3
                      | _ => (st2, .err (.InvalidCall 0))
                  | r2 => r2
              | none =>
                  match evaluate fuel st1 callee with
                  | (st2, .ok cv) =>
                      match cv with
                      | .Function n p b =>
                          execCallWith (evaluate fuel) st2 none (.Function n p b) argv
                      | .AsyncFunction n p b =>
                          ({ st2 with
                              promises := st2.promises ++
                                [.Pending st2.current (.AsyncFunction n p b) argv st2.line false] },
                           .ok (.Promise st2.promises.length))
                      | .NativeFunction n a =>
                          execCallWith (evaluate fuel) st2 none (.NativeFunction n a) argv
                      | _ => (st2, .err (.InvalidCall 0))
                  | r2 => r2
          | (st1, .err e2) => (st1, .err e2)
          | (st1, .timeout) => (st1, .timeout)
          | (st1, .crash) => (st1, .crash)
      | .Await inner =>
          match evaluate fuel st inner with
          | (st1, .ok v) =>
              match v with
              | .Promise pid =>
                  match st1.promises.get? pid with
                  | some (.Pending penv pcallee pargs pline consumed) =>
                      if consumed then (st1, .crash)
                      else
                        execAsyncCallWith (evaluate fuel)
                          { st1 with
                              promises := st1.promises.set pid
                                (.Pending penv pcallee pargs pline true) }
                          penv pcallee pargs pline st1.current st1.line
                  | some (.Fulfilled w) => (st1, .ok w)
                  | some (.Rejected _) => (st1, .err (.PromiseRejected st1.line))
                  | none => (st1, .crash)
              | _ => (st1, .err (.InvalidCall 0))
          | r1 => r1
      | .Grouping inner => evaluate fuel st inner
      | .Nil => (st, .ok .Nil)
      | .If cond thenB elseB =>
          match evaluate fuel st cond with
          | (st1, .ok cv) =>
              if is_truthy cv then evaluate fuel st1 thenB else evaluate fuel st1 elseB
          | r1 => r1
      | .Logical l op r =>
          match evaluate fuel st l with
          | (st1, .ok lv) =>
              match op.token_type with
              | .Or => if is_truthy lv then (st1, .ok lv) else evaluate fuel st1 r
              | .And => if ! is_truthy lv then (st1, .ok lv) else evaluate fuel st1 r
              | _ => (st1, .err (.InvalidLogicalOperator op.line))
          | r1 => r1
      | .While cond body =>
          match evaluate fuel st cond with
          | (st1, .ok cv) => whileGoWith (evaluate fuel) cond body fuel st1 cv .Nil
          | r1 => r1
      | .For init cond inc body =>
          match evaluate fuel st init with
          | (st1, .ok _) =>
              match evaluate fuel st1 cond with
              | (st2, .ok cv) => forGoWith (evaluate fuel) cond inc body fuel st2 cv .Nil
              | r2 => r2
          | r1 => r1
      | .Return _ value =>
          match evaluate fuel st value with
          | (st1, .ok v) => (st1, .err (.Return v))
          | r1 => r1
      | .Import pathE =>
          match evaluate fuel st pathE with
          | (st1, .ok pv) =>
              match pv with
              | .String p =>
                  if p.startsWith "/" then
                    (st1, .err (.RuntimeError 0 ("Could not read module file: " ++ p)))
                  else
                    (st1, .err (.RuntimeError 0 ("Could not find module: " ++ p)))
              | other => (st1, .err (.InvalidImport st1.line other.to_string))
          | r1 => r1
      | .Class name methods =>
          match collectMethods methods [] with
          | some ms =>
              let cv := Value.Class name.lexeme ms
              ({ st with envs := envDefine st.envs st.current name.lexeme cv }, .ok cv)
          | none => (st, .err (.InvalidClassMethod st.line))
      | .TryCatch tb cp cb => execTryCatchWith (evaluate fuel) st tb cp cb

/-- The statement loop of `Interpreter::interpret`: set `self.line` to the
statement's recorded line, evaluate, keep the last value, stop at the first
error. -/
def interpretGo (fuel : Nat) : St → List (Expr × Nat) → Value → St × Out Value
  | st, [], last => (st, .ok last)
  | st, (e, line) :: rest, _ =>
      match evaluate fuel { st with line := line } e with
      | (st1, .ok v) => interpretGo fuel st1 rest v
      | r1 => r1

/-- `Interpreter::interpret`. -/
def interpret (fuel : Nat) (st : St) (prog : List (Expr × Nat)) : St × Out Value :=
  interpretGo fuel st prog .Nil

/-- The root native table after `Environment::new` (which registers natives
in its constructor) followed by `register_native_functions`
(`src/interpreter/native_functions.rs`); duplicates re-insert with the same
arity, so the list is the constructor's entries followed by the newly added
ones.  Only names and arities matter to the model. -/
def rootNatives : List (String × Nat) :=
  [("exit", 1), ("random", 0), ("clock", 0), ("print", 1), ("input", 0),
   ("einput", 1), ("readFile", 1), ("writeFile", 2), ("appendFile", 2),
   ("toString", 1), ("toNumber", 1), ("toBool", 1), ("sqrt", 1), ("pow", 2),
   ("abs", 1), ("round", 1), ("floor", 1), ("ceil", 1), ("len", 1),
   ("concat", 2), ("substring", 3), ("typeOf", 1), ("assert", 2),
   ("delay", 1), ("listen", 1), ("connect", 2), ("connectTLS", 2),
   ("accept", 1), ("write", 2), ("read", 1)]

/-- The state produced by `Interpreter::new` / `new_with_base_path`: one
root environment with the native table, no promises, line 0. -/
def initSt : St :=
  { envs := [{ values := [], enclosing := none, natives := rootNatives, modules := [] }],
    promises := [], current := 0, line := 0 }

/-- Run a parsed program from the initial interpreter state. -/
def interpretProgram (fuel : Nat) (prog : List (Expr × Nat)) : St × Out Value :=
  interpret fuel initSt prog

/-! ### Expression-tree builders for the concrete test programs -/

/-- An identifier token. -/
def identTok (s : String) : Token :=
  { token_type := .IDENTIfIER, lexeme := s, literal := none, line := 1 }

/-- A number token carrying its normalised payload. -/
def numTok (s : String) : Token :=
  { token_type := .Number, lexeme := s, literal := some s, line := 1 }

/-- A token of an arbitrary kind. -/
def opTok (t : TokenType) (s : String) : Token :=
  { token_type := t, lexeme := s, literal := none, line := 1 }

/-- A numeric literal expression. -/
def numLit (s : String) : Expr := .Literal (numTok s) s

/-- A string literal expression. -/
def strLit (s : String) : Expr :=
  .Literal { token_type := .STRING, lexeme := s, literal := some s, line := 1 } s

/-- The `false` literal. -/
def falseLit : Expr := .Literal (opTok .False "false") "false"

/-- A variable reference. -/
def varE (s : String) : Expr := .Variable (identTok s)

/-- A `var` declaration. -/
def letE (n : String) (e : Expr) : Expr := .Let (identTok n) e

/-- A `return`. -/
def returnE (e : Expr) : Expr := .Return (opTok .Return "return") e

/-- An assignment to an existing binding. -/
def assignE (n : String) (e : Expr) : Expr := .Assign (identTok n) e

/-- A receiverless call of a named callee. -/
def callE (f : String) (args : List Expr) : Expr := .Call none (varE f) args

/-- A receiver call `o.f(args)`. -/
def mcallE (o f : String) (args : List Expr) : Expr :=
  .Call (some (varE o)) (varE f) args

/-- A function declaration with a block body. -/
def funE (n : String) (ps : List String) (body : List Expr) : Expr :=
  .Function (identTok n) (ps.map identTok) (.Block body)

/-- A negated numeric literal, as the parser produces for `-n`. -/
def negLit (s : String) : Expr := .Unary (opTok .Minus "-") (numLit s)

/-! ### Concrete programs and states used by the claims -/

/-- C1: `fun f() { { return 1 } 2 }  f()`. -/
def c1prog : List (Expr × Nat) :=
  [(funE "f" [] [.Block [returnE (numLit "1")], numLit "2"], 1),
   (callE "f" [], 2)]

/-- C3: `[1] == [1]`. -/
def c3prog : List (Expr × Nat) :=
  [(.Binary (.Array [numLit "1"]) (opTok .EqualEqual "==") (.Array [numLit "1"]), 1)]

/-- C4: bind `b` to the array bound to `a`, write through `a`, read through
`b`. -/
def c4arrProg : List (Expr × Nat) :=
  [(letE "a" (.Array [numLit "1", numLit "2"]), 1),
   (letE "b" (varE "a"), 2),
   (.Set (identTok "a") (numLit "0") (numLit "9"), 3),
   (.Get (varE "b") (numLit "0"), 4)]

/-- C4: as `c4arrProg` but reading back through `a` itself. -/
def c4arrSelfProg : List (Expr × Nat) :=
  [(letE "a" (.Array [numLit "1", numLit "2"]), 1),
   (letE "b" (varE "a"), 2),
   (.Set (identTok "a") (numLit "0") (numLit "9"), 3),
   (.Get (varE "a") (numLit "0"), 4)]

/-- C4: the dictionary analogue of `c4arrProg`. -/
def c4dictProg : List (Expr × Nat) :=
  [(letE "d" (.Dictionary [(strLit "k", numLit "1")]), 1),
   (letE "e" (varE "d"), 2),
   (.Set (identTok "d") (strLit "k") (numLit "9"), 3),
   (.Get (varE "e") (strLit "k"), 4)]

/-- Body of the field-writing method `setx(v) { x = v }`. -/
def setxBody : Expr := .Block [assignE "x" (varE "v")]

/-- Body of the field-reading method `getx() { return x }`. -/
def getxBody : Expr := .Block [returnE (varE "x")]

/-- A member environment of an instance: field `x` and two methods, enclosed
by the root. -/
def instNode : EnvNode :=
  { values := [("x", .Number 1),
               ("setx", .Function "setx" ["v"] setxBody),
               ("getx", .Function "getx" [] getxBody)],
    enclosing := some 0, natives := [], modules := [] }

/-- A state in which `o` and `p` are two references to the same instance
(both carry the member-environment handle `1`). -/
def aliasSt : St :=
  { envs := [{ values := [("o", .Instance "C" 1), ("p", .Instance "C" 1)],
               enclosing := none, natives := rootNatives, modules := [] },
             instNode],
    promises := [], current := 0, line := 0 }

/-- C4: mutate the shared instance through `o`, read through `p`. -/
def c4instProg : List (Expr × Nat) :=
  [(mcallE "o" "setx" [numLit "9"], 1),
   (mcallE "p" "getx" [], 2)]

/-- C5: a class with one method and no `_construct`, then `new C()`
(the parser's `Call(None, Variable C, [])`). -/
def c5prog : List (Expr × Nat) :=
  [(.Class (identTok "C") [funE "m" [] [returnE (numLit "1")]], 1),
   (letE "o" (callE "C" []), 2)]

/-- C5: a method table with a `_construct` that writes the outer `g`, plus a
method `m`. -/
def c5methods : List (String × Value) :=
  [("_construct", .Function "_construct" ["p0"] (.Block [assignE "g" (varE "p0")])),
   ("m", .Function "m" [] (.Block [returnE (numLit "1")]))]

/-- C5: a root environment holding `g`. -/
def c5st : St :=
  { envs := [{ values := [("g", .Number 0)], enclosing := none,
               natives := rootNatives, modules := [] }],
    promises := [], current := 0, line := 0 }

/-- C6: read `a[-1]` on `[10, 20, 30]`. -/
def c6getNegProg : List (Expr × Nat) :=
  [(letE "a" (.Array [numLit "10", numLit "20", numLit "30"]), 1),
   (.Get (varE "a") (negLit "1"), 2)]

/-- C6: write `a[-1] = 99` then read `a[0]`. -/
def c6setNegProg : List (Expr × Nat) :=
  [(letE "a" (.Array [numLit "10", numLit "20"]), 1),
   (.Set (identTok "a") (negLit "1") (numLit "99"), 2),
   (.Get (varE "a") (numLit "0"), 3)]

/-- C6: write at index `len`. -/
def c6setOobProg : List (Expr × Nat) :=
  [(letE "a" (.Array [numLit "10"]), 1),
   (.Set (identTok "a") (numLit "1") (numLit "5"), 2)]

/-- C6: in-bounds write then read back. -/
def c6setOkProg : List (Expr × Nat) :=
  [(letE "a" (.Array [numLit "10", numLit "20"]), 1),
   (.Set (identTok "a") (numLit "1") (numLit "5"), 2),
   (.Get (varE "a") (numLit "1"), 3)]

/-- C7: a block that declares `y` and then returns, followed by a read of
`y` at top level. -/
def c7retProg : List (Expr × Nat) :=
  [(.Block [letE "y" (numLit "5"), returnE (numLit "1")], 1),
   (varE "y", 2)]

/-- C7: the same block without the `return`. -/
def c7normProg : List (Expr × Nat) :=
  [(.Block [letE "y" (numLit "5")], 1),
   (varE "y", 2)]

/-- C8: declare `async fun g() { return 42 }`, call it, await the promise. -/
def c8prog : List (Expr × Nat) :=
  [(.AsyncFunction (identTok "g") [] (.Block [returnE (numLit "42")]), 1),
   (letE "p" (callE "g" []), 2),
   (.Await (varE "p"), 3)]

/-- C8: await the same promise twice. -/
def c8doubleProg : List (Expr × Nat) :=
  c8prog ++ [(.Await (varE "p"), 4)]

/-- C8: await a non-promise. -/
def c8nonPromiseProg : List (Expr × Nat) :=
  [(.Await (numLit "5"), 1)]

/-- C8: a state whose promise 0 is already `Fulfilled(7)` and is bound to
`p`. -/
def c8fulfilledSt : St :=
  { envs := [{ values := [("p", .Promise 0)], enclosing := none,
               natives := rootNatives, modules := [] }],
    promises := [.Fulfilled (.Number 7)], current := 0, line := 0 }

/-- C8: as `c8fulfilledSt` but with a rejected promise. -/
def c8rejectedSt : St :=
  { envs := [{ values := [("p", .Promise 0)], enclosing := none,
               natives := rootNatives, modules := [] }],
    promises := [.Rejected (.DivisionByZero 1)], current := 0, line := 0 }

/-- Does an outcome carry the `Return` pseudo-error? -/
def Out.isReturnUnwind : Out Value → Bool
  | .err (.Return _) => true
  | _ => false

/-- Is a promise still in the `Pending` variant? -/
def PromState.isPending : PromState → Bool
  | .Pending _ _ _ _ _ => true
  | _ => false

/-! ### The `Environment` of `src/interpreter/enviroment.rs`, as written

`Environment::get` / `get_from_module` are specified (and claimed) on the
`Box`-owned environment tree of `enviroment.rs`, so for the lookup claims we
embed that structure directly: a node owns its bindings, its optional
enclosing node, its native table and its module registry (a `Module`'s
`name` and `path` fields play no part in lookup and are dropped). -/

/-- A `Box`-owned environment node. -/
inductive BEnv where
  | mk (values : List (String × Value)) (enclosing : Option BEnv)
       (natives : List (String × Nat)) (modules : List (String × BEnv))

/-- Own bindings of a node. -/
def BEnv.values : BEnv → List (String × Value)
  | .mk v _ _ _ => v

/-- The module-registry scan of `Environment::get_from_module`: first module
(in registry order) whose top-level bindings contain the name. -/
def benvModScan : List (String × BEnv) → String → Option Value
  | [], _ => none
  | (_, m) :: rest, n =>
      match aget m.values n with
      | some v => some v
      | none => benvModScan rest n

/-- `Environment::get_from_module`. -/
def BEnv.get_from_module (e : BEnv) (n : String) : Option Value :=
  match e with
  | .mk _ _ _ mods => benvModScan mods n

/-- `Environment::get` (`src/interpreter/enviroment.rs`, lines 400-417): at
each node, the module registry is consulted first, then the native table,
then the node's own bindings, and only then the enclosing node; the final
`Err(UndefinedVariable ...)` is modelled as `none`. -/
def BEnv.get : BEnv → String → Option Value
  | .mk vals encl nats mods, name =>
      match benvModScan mods name with
      | some v => some v
      | none =>
          match aget nats name with
          | some arity => some (.NativeFunction name arity)
          | none =>
              match aget vals name with
              | some v => some v
              | none =>
                  match encl with
                  | some e => BEnv.get e name
                  | none => none

/-- The lookup the specification describes: own bindings first, then the
enclosing chain, with no module or native participation.  Used as the
reference point of the refinement statement for C2. -/
def specLexicalGet : BEnv → String → Option Value
  | .mk vals encl _ _, name =>
      match aget vals name with
      | some v => some v
      | none =>
          match encl with
          | some e => specLexicalGet e name
          | none => none

/-- A chain with no registered modules and no natives anywhere. -/
def BEnv.plainChain : BEnv → Bool
  | .mk _ encl nats mods =>
      nats.isEmpty && mods.isEmpty &&
        (match encl with
         | some e => BEnv.plainChain e
         | none => true)

/-- C2: a module whose top level binds `x` to `2`. -/
def c2moduleEnv : BEnv := .mk [("x", .Number 2)] none [] []

/-- C2: an environment binding `x` to `1` in its own scope, with the module
registered. -/
def c2env : BEnv := .mk [("x", .Number 1)] none [] [("m", c2moduleEnv)]

/-! ### `impl PartialEq for Value` (`src/interpreter/value.rs`)

This host-level equality (used by the `assert` native and by `Vec`/`HashMap`
comparisons) is distinct from the `==` operator's `Interpreter::is_equal`.
The fuel models the host's recursion: `none` stands for the non-termination
a cyclic instance graph would cause. -/

/-- Elementwise `Vec<Value>` equality through `f`. -/
def listEqBy (f : Value → Value → Option Bool) : List Value → List Value → Option Bool
  | [], [] => some true
  | [], _ :: _ => some false
  | _ :: _, [] => some false
  | a :: restA, b :: restB =>
      match f a b with
      | some true => listEqBy f restA restB
      | some false => some false
      | none => none

/-- Key-by-key scan for `HashMap<String, Value>` equality. -/
def mapEqScan (f : Value → Value → Option Bool) :
    List (String × Value) → List (String × Value) → Option Bool
  | [], _ => some true
  | (k, v) :: rest, ys =>
      match aget ys k with
      | some w =>
          match f v w with
          | some true => mapEqScan f rest ys
          | some false => some false
          | none => none
      | none => some false

/-- `HashMap<String, Value>` equality: same size and every key of the first
maps to an equal value in the second. -/
def mapEqBy (f : Value → Value → Option Bool) (xs ys : List (String × Value)) : Option Bool :=
  if xs.length ≠ ys.length then some false else mapEqScan f xs ys

/-- `impl PartialEq for Value`: exact numeric equality, structural equality
on strings/booleans/nil, name equality for functions and classes, name plus
member-environment equality for instances (reading the environments through
the heap), elementwise equality for arrays and dictionaries, handle identity
for sockets and servers, and `false` for every other pair (notably async
functions, native functions, TLS sockets and promises). -/
def valueEq : Nat → List EnvNode → Value → Value → Option Bool
  | 0, _, _, _ => none
  | fu + 1, envs, a, b =>
      match a, b with
      | .Number x, .Number y => some (decide (x = y))
      | .String x, .String y => some (decide (x = y))
      | .Boolean x, .Boolean y => some (x == y)
      | .Nil, .Nil => some true
      | .Function n1 _ _, .Function n2 _ _ => some (decide (n1 = n2))
      | .Class n1 _, .Class n2 _ => some (decide (n1 = n2))
      | .Instance n1 i, .Instance n2 j =>
          if n1 ≠ n2 then some false
          else
            match getEnv envs i, getEnv envs j with
            | some ni, some nj => mapEqBy (valueEq fu envs) ni.values nj.values
            | _, _ => none
      | .Array xs, .Array ys => listEqBy (valueEq fu envs) xs ys
      | .Dictionary xs, .Dictionary ys => mapEqBy (valueEq fu envs) xs ys
      | .Socket i, .Socket j => some (i == j)
      | .Server i, .Server j => some (i == j)
      | _, _ => some false

/-! ### The recursive-descent parser (`src/parser/mod.rs`)

`Parser` state is the token vector plus the cursor.  Recursion through
`primary` is bounded by fuel (`primaryF`); each looping helper also takes
fuel for its iteration count.  `timeout` is a model artefact, never a
behaviour of the source. -/

/-- Default token for out-of-range accesses (unreachable for
tokenizer-produced streams, which end in `Eof` and never advance past
it). -/
def eofToken : Token := { token_type := .Eof, lexeme := "", literal := none, line := 0 }

/-- Parser state (`struct Parser`): the cursor `current` into the immutable
token vector is represented as a zipper — the token just before the cursor
(what `Parser::previous` returns) and the suffix from the cursor on.
`prev` starts as the out-of-range default. -/
structure PSt where
  prev : Token
  rest : List Token

/-- `Parser::peek` (`tokens[current]`). -/
def peekT (p : PSt) : Token := p.rest.headD eofToken

/-- `Parser::previous` (`tokens[current - 1]`). -/
def previousT (p : PSt) : Token := p.prev

/-- `Parser::is_at_end`. -/
def isAtEnd (p : PSt) : Bool := (peekT p).token_type = .Eof

/-- `Parser::advance`: bump the cursor unless at `Eof`, return the token
just passed. -/
def advanceT (p : PSt) : Token × PSt :=
  if isAtEnd p then (previousT p, p)
  else
    match p.rest with
    | [] => (previousT p, p)
    | t :: ts => (t, { prev := t, rest := ts })

/-- `Parser::check` (always false at `Eof`). -/
def checkT (p : PSt) (t : TokenType) : Bool :=
  if isAtEnd p then false else (peekT p).token_type = t

/-- `Parser::match_token`. -/
def matchToken (p : PSt) (t : TokenType) : Bool × PSt :=
  if checkT p t then
    let (_, p1) := advanceT p
    (true, p1)
  else (false, p)

/-- `Parser::match_tokens`: first matching kind wins. -/
def matchTokens (p : PSt) : List TokenType → Bool × PSt
  | [] => (false, p)
  | t :: rest =>
      if checkT p t then
        let (_, p1) := advanceT p
        (true, p1)
      else matchTokens p rest

/-- Parser errors (`ParserErrorKind`, the kinds this parser produces). -/
inductive PErr where
  | ExpectExpression (lexeme : String) (line : Nat)
  | InvalidAssignmentTarget (line : Nat)
  | InvalidParametsCount (line : Nat)
  | InvalidImport (line : Nat)
deriving Repr, DecidableEq

/-- Parse outcome. -/
inductive POut (α : Type) where
  | ok (a : α)
  | err (e : PErr)
  | timeout
deriving Repr

/-- `Parser::consume`. -/
def consumeT (p : PSt) (t : TokenType) : PSt × POut Token :=
  if checkT p t then
    let (tk, p1) := advanceT p
    (p1, .ok tk)
  else (p, .err (.ExpectExpression (previousT p).lexeme (peekT p).line))

/-- Sequencing of fallible parse steps — the `?` operator. -/
def pbind {α β : Type} (r : PSt × POut α) (f : PSt → α → PSt × POut β) : PSt × POut β :=
  match r with
  | (p, .ok a) => f p a
  | (p, .err e) => (p, .err e)
  | (p, .timeout) => (p, .timeout)

/-- A parsing function for one nonterminal. -/
abbrev PFn := PSt → PSt × POut Expr

/-- The operator loop shared by `comparison`/`logical`/`term`/`factor`:
repeatedly match one of `ops` and fold the right operand in with `mk`. -/
def binChainGo (next : PFn) (ops : List TokenType) (mk : Expr → Token → Expr → Expr) :
    Nat → PSt → Expr → PSt × POut Expr
  | 0, p, _ => (p, .timeout)
  | k + 1, p, e =>
      let (m, p1) := matchTokens p ops
      if m then
        let op := previousT p1
        match next p1 with
        | (p2, .ok r) => binChainGo next ops mk k p2 (mk e op r)
        | r2 => r2
      else (p, .ok e)

/-- One precedence level: parse `next`, then its operator loop. -/
def binChainWith (next : PFn) (ops : List TokenType) (mk : Expr → Token → Expr → Expr)
    (fuel : Nat) : PFn := fun p =>
  match next p with
  | (p1, .ok e) => binChainGo next ops mk fuel p1 e
  | r1 => r1

/-- `Parser::unary`: `!`/`-` prefixes, then `primary`. -/
def unaryWith (prim : PFn) : Nat → PFn
  | 0, p => (p, .timeout)
  | k + 1, p =>
      let (m, p1) := matchTokens p [.Bang, .Minus]
      if m then
        let op := previousT p1
        match unaryWith prim k p1 with
        | (p2, .ok r) => (p2, .ok (.Unary op r))
        | r2 => r2
      else prim p

/-- `Parser::expression` (= `comparison`), given the `primary` parser: the
precedence ladder comparison → logical → term → factor → unary →
primary. -/
def exprWith (prim : PFn) (fuel : Nat) : PFn :=
  binChainWith
    (binChainWith
      (binChainWith
        (binChainWith (unaryWith prim fuel) [.Slash, .Star, .Modulo] .Binary fuel)
        [.Minus, .Plus] .Binary fuel)
      [.Or, .And] .Logical fuel)
    [.Greater, .GreaterEqual, .Less, .LessEqual, .BandEqual, .EqualEqual] .Binary fuel

/-- The comma-separated expression loop of `Parser::arguments` (and of the
array literal): there is no entry-count check here. -/
def argumentsGo (pe : PFn) : Nat → PSt → List Expr → PSt × POut (List Expr)
  | 0, p, _ => (p, .timeout)
  | k + 1, p, acc =>
      match pe p with
      | (p1, .ok e) =>
          let (m, p2) := matchTokens p1 [.Comma]
          if m then argumentsGo pe k p2 (acc ++ [e])
          else (p2, .ok (acc ++ [e]))
      | (p1, .err e1) => (p1, .err e1)
      | (p1, .timeout) => (p1, .timeout)

/-- `Parser::arguments`. -/
def argumentsWith (pe : PFn) (fuel : Nat) (p : PSt) : PSt × POut (List Expr) :=
  if checkT p .RightParen then (p, .ok [])
  else argumentsGo pe fuel p []

/-- The parameter loop of `function_declaration` /
`async_function_declaration`, with the 255-entry check before each
parameter. -/
def paramsGo : Nat → PSt → List Token → PSt × POut (List Token)
  | 0, p, _ => (p, .timeout)
  | k + 1, p, acc =>
      if acc.length ≥ 255 then (p, .err (.InvalidParametsCount (previousT p).line))
      else
        match consumeT p .IDENTIfIER with
        | (p1, .ok tk) =>
            let (m, p2) := matchToken p1 .Comma
            if m then paramsGo k p2 (acc ++ [tk])
            else (p2, .ok (acc ++ [tk]))
        | (p1, .err e1) => (p1, .err e1)
        | (p1, .timeout) => (p1, .timeout)

/-- The parameter list, empty when `)` is next. -/
def paramsWith (fuel : Nat) (p : PSt) : PSt × POut (List Token) :=
  if checkT p .RightParen then (p, .ok [])
  else paramsGo fuel p []

/-- The statement loop of `Parser::block` (also used by the class body):
expressions until `}` or `Eof`. -/
def blockStmtsGo (pe : PFn) : Nat → PSt → List Expr → PSt × POut (List Expr)
  | 0, p, _ => (p, .timeout)
  | k + 1, p, acc =>
      if ! checkT p .RightBrace && ! isAtEnd p then
        match pe p with
        | (p1, .ok e) => blockStmtsGo pe k p1 (acc ++ [e])
        | (p1, .err e1) => (p1, .err e1)
        | (p1, .timeout) => (p1, .timeout)
      else (p, .ok acc)

/-- `Parser::block` (the `{` has already been consumed). -/
def blockWith (pe : PFn) (fuel : Nat) (p : PSt) : PSt × POut Expr :=
  pbind (blockStmtsGo pe fuel p []) fun p1 stmts =>
    pbind (consumeT p1 .RightBrace) fun p2 _ =>
      (p2, .ok (.Block stmts))

/-- `Parser::try_statement`. -/
def tryStatementWith (pe : PFn) (fuel : Nat) (p : PSt) : PSt × POut Expr :=
  pbind (consumeT p .LeftBrace) fun p1 _ =>
    pbind (blockWith pe fuel p1) fun p2 tb =>
      pbind (consumeT p2 .Catch) fun p3 _ =>
        pbind (consumeT p3 .LeftParen) fun p4 _ =>
          match (peekT p4).token_type with
          | .IDENTIfIER =>
              let (tk, p5) := advanceT p4
              pbind (consumeT p5 .RightParen) fun p6 _ =>
                pbind (consumeT p6 .LeftBrace) fun p7 _ =>
                  pbind (blockWith pe fuel p7) fun p8 cb =>
                    (p8, .ok (.TryCatch tb tk.lexeme cb))
          | _ => (p4, .err (.ExpectExpression (previousT p4).lexeme (peekT p4).line))

/-- `Parser::assignment`: `= rhs` after the identifier, else
`InvalidAssignmentTarget` (without undoing any consumption). -/
def assignmentWith (pe : PFn) (p : PSt) : PSt × POut Expr :=
  let nameTok := previousT p
  let (mEq, p1) := matchTokens p [.Equal]
  if mEq then
    pbind (pe p1) fun p2 v => (p2, .ok (.Assign nameTok v))
  else (p1, .err (.InvalidAssignmentTarget (peekT p1).line))

/-- `Parser::instance_or_get_or_set`. -/
def instanceOrGetOrSetWith (pe : PFn) (fuel : Nat) (p : PSt) : PSt × POut Expr :=
  let nameTok := previousT p
  let (mDot, p1) := matchTokens p [.Dot]
  if mDot then
    pbind (pe p1) fun p2 varExpr =>
      let (mEq, p3) := matchTokens p2 [.Equal]
      if mEq then
        pbind (pe p3) fun p4 newValue =>
          (p4, .ok (.Set nameTok varExpr newValue))
      else
        let (mLp, p4) := matchTokens p3 [.LeftParen]
        if mLp then
          pbind (argumentsWith pe fuel p4) fun p5 args =>
            pbind (consumeT p5 .RightParen) fun p6 _ =>
              (p6, .ok (.Call (some (.Variable nameTok)) varExpr args))
        else (p4, .ok (.Get (.Variable nameTok) varExpr))
  else (p1, .err (.InvalidAssignmentTarget (peekT p1).line))

/-- `Parser::array_dictionary_access`. -/
def arrayDictAccessWith (pe : PFn) (p : PSt) : PSt × POut Expr :=
  let nameTok := previousT p
  pbind (consumeT p .LeftBracket) fun p1 _ =>
    pbind (pe p1) fun p2 index =>
      pbind (consumeT p2 .RightBracket) fun p3 _ =>
        let (mEq, p4) := matchTokens p3 [.Equal]
        if mEq then
          pbind (pe p4) fun p5 newValue => (p5, .ok (.Set nameTok index newValue))
        else (p4, .ok (.Get (.Variable nameTok) index))

/-- `Parser::var_declaration`. -/
def varDeclarationWith (pe : PFn) (p : PSt) : PSt × POut Expr :=
  pbind (consumeT p .IDENTIfIER) fun p1 nameTok =>
    let (mEq, p2) := matchToken p1 .Equal
    if mEq then pbind (pe p2) fun p3 init => (p3, .ok (.Let nameTok init))
    else (p2, .ok (.Let nameTok .Nil))

/-- The trailing `( args )` loop of `Parser::call`, and the final
`matches!(expr, Call)` check. -/
def callParenGo (pe : PFn) (fuel : Nat) : Nat → PSt → Expr → PSt × POut Expr
  | 0, p, _ => (p, .timeout)
  | k + 1, p, e =>
      let (m, p1) := matchTokens p [.LeftParen]
      if m then
        pbind (argumentsWith pe fuel p1) fun p2 args =>
          pbind (consumeT p2 .RightParen) fun p3 _ =>
            callParenGo pe fuel k p3 (.Call none e args)
      else
        match e with
        | .Call _ _ _ => (p, .ok e)
        | _ => (p, .err (.ExpectExpression (previousT p).lexeme (peekT p).line))

/-- `Parser::call`: an optional `.method(args)` receiver form (which
returns on its first argument list), else plain `callee(args)...`. -/
def callWith (pe : PFn) (fuel : Nat) (p : PSt) : PSt × POut Expr :=
  let nameTok := previousT p
  let expr0 := Expr.Variable nameTok
  let (mDot, p1) := matchTokens p [.Dot]
  if mDot then
    pbind (consumeT p1 .IDENTIfIER) fun p2 funName =>
      let (mLp, p3) := matchTokens p2 [.LeftParen]
      if mLp then
        pbind (argumentsWith pe fuel p3) fun p4 args =>
          pbind (consumeT p4 .RightParen) fun p5 _ =>
            (p5, .ok (.Call (some expr0) (.Variable funName) args))
      else callParenGo pe fuel fuel p3 expr0
  else callParenGo pe fuel fuel p1 expr0

/-- `Parser::await_statement` (note: the operand is a bare `primary`). -/
def awaitStatementWith (prim : PFn) (p : PSt) : PSt × POut Expr :=
  pbind (prim p) fun p1 e => (p1, .ok (.Await e))

/-- `Parser::return_statement`. -/
def returnStatementWith (pe : PFn) (p : PSt) : PSt × POut Expr :=
  let keyword := previousT p
  if ! checkT p .Semicolon then
    pbind (pe p) fun p1 v => (p1, .ok (.Return keyword v))
  else (p, .ok (.Return keyword .Nil))

/-- `Parser::import_statement`. -/
def importStatementWith (p : PSt) : PSt × POut Expr :=
  pbind (consumeT p .STRING) fun p1 _ =>
    match (previousT p1).literal with
    | some lit => (p1, .ok (.Import (.Literal (previousT p1) lit)))
    | none => (p1, .err (.InvalidImport (peekT p1).line))

/-- `Parser::function_declaration`. -/
def functionDeclarationWith (pe : PFn) (fuel : Nat) (p : PSt) : PSt × POut Expr :=
  pbind (consumeT p .IDENTIfIER) fun p1 nameTok =>
    pbind (consumeT p1 .LeftParen) fun p2 _ =>
      pbind (paramsWith fuel p2) fun p3 params =>
        pbind (consumeT p3 .RightParen) fun p4 _ =>
          pbind (consumeT p4 .LeftBrace) fun p5 _ =>
            pbind (blockWith pe fuel p5) fun p6 body =>
              (p6, .ok (.Function nameTok params body))

/-- `Parser::async_function_declaration` (`fun` still to be consumed). -/
def asyncFunctionDeclarationWith (pe : PFn) (fuel : Nat) (p : PSt) : PSt × POut Expr :=
  pbind (consumeT p .Fun) fun p1 _ =>
    pbind (consumeT p1 .IDENTIfIER) fun p2 nameTok =>
      pbind (consumeT p2 .LeftParen) fun p3 _ =>
        pbind (paramsWith fuel p3) fun p4 params =>
          pbind (consumeT p4 .RightParen) fun p5 _ =>
            pbind (consumeT p5 .LeftBrace) fun p6 _ =>
              pbind (blockWith pe fuel p6) fun p7 body =>
                (p7, .ok (.AsyncFunction nameTok params body))

/-- `Parser::if_statement`, fuelled for the `else if` chain; mirrors the
short-circuit of `(match(Semicolon) && match(Else)) || match(Else)`. -/
def ifStatementWith (pe : PFn) : Nat → PSt → PSt × POut Expr
  | 0, p => (p, .timeout)
  | k + 1, p =>
      pbind (consumeT p .LeftParen) fun p1 _ =>
        pbind (pe p1) fun p2 cond =>
          pbind (consumeT p2 .RightParen) fun p3 _ =>
            pbind (pe p3) fun p4 thenB =>
              let (m1, p5) := matchToken p4 .Semicolon
              let (left, p6) := if m1 then matchToken p5 .Else else (false, p5)
              let (cEl, p7) := if left then (true, p6) else matchToken p6 .Else
              if cEl then
                let (mIf, p8) := matchToken p7 .If
                if mIf then
                  pbind (ifStatementWith pe k p8) fun p9 elseB =>
                    (p9, .ok (.If cond thenB elseB))
                else
                  pbind (pe p8) fun p9 elseB => (p9, .ok (.If cond thenB elseB))
              else (p7, .ok (.If cond thenB .Nil))

/-- `Parser::while_statement`. -/
def whileStatementWith (pe : PFn) (p : PSt) : PSt × POut Expr :=
  pbind (consumeT p .LeftParen) fun p1 _ =>
    pbind (pe p1) fun p2 cond =>
      pbind (consumeT p2 .RightParen) fun p3 _ =>
        pbind (pe p3) fun p4 body => (p4, .ok (.While cond body))

/-- `Parser::for_statement`: optional initialiser (the `;` in its place is
consumed by the first match), a condition defaulting to a synthesised `true`
literal, an optional increment. -/
def forStatementWith (pe : PFn) (p : PSt) : PSt × POut Expr :=
  pbind (consumeT p .LeftParen) fun p1 _ =>
    let (mSemi, p2) := matchToken p1 .Semicolon
    pbind
      (if mSemi then (p2, .ok Expr.Nil)
       else
         let (mVar, p3) := matchToken p2 .Var
         if mVar then varDeclarationWith pe p3 else pe p2)
      fun p4 initE =>
        pbind
          (match initE with
           | .Nil => (p4, POut.ok eofToken)
           | _ => consumeT p4 .Semicolon)
          fun p5 _ =>
            pbind
              (if checkT p5 .Semicolon then
                 (p5, POut.ok (Expr.Literal
                   { token_type := .True, lexeme := "true", literal := none,
                     line := (peekT p5).line } "true"))
               else pe p5)
              fun p6 condE =>
                pbind (consumeT p6 .Semicolon) fun p7 _ =>
                  pbind
                    (if checkT p7 .RightParen then (p7, POut.ok Expr.Nil) else pe p7)
                    fun p8 incE =>
                      pbind (consumeT p8 .RightParen) fun p9 _ =>
                        pbind (pe p9) fun p10 body =>
                          (p10, .ok (.For initE condE incE body))

/-- `Parser::class_declaration`. -/
def classDeclarationWith (pe : PFn) (fuel : Nat) (p : PSt) : PSt × POut Expr :=
  pbind (consumeT p .IDENTIfIER) fun p1 nameTok =>
    pbind (consumeT p1 .LeftBrace) fun p2 _ =>
      pbind (blockStmtsGo pe fuel p2 []) fun p3 methods =>
        pbind (consumeT p3 .RightBrace) fun p4 _ =>
          (p4, .ok (.Class nameTok methods))

/-- `Parser::class_instantiation`. -/
def classInstantiationWith (pe : PFn) (fuel : Nat) (p : PSt) : PSt × POut Expr :=
  pbind (consumeT p .IDENTIfIER) fun p1 classNameTok =>
    pbind (consumeT p1 .LeftParen) fun p2 _ =>
      pbind (argumentsWith pe fuel p2) fun p3 args =>
        pbind (consumeT p3 .RightParen) fun p4 _ =>
          (p4, .ok (.Call none (.Variable classNameTok) args))

/-- The element loop plus closing bracket of `Parser::array` (the `[` has
been consumed; the comma loop is the same shape as `arguments`). -/
def arrayLiteralWith (pe : PFn) (fuel : Nat) (p : PSt) : PSt × POut Expr :=
  pbind (if checkT p .RightBracket then (p, .ok []) else argumentsGo pe fuel p []) fun p1 elems =>
    pbind (consumeT p1 .RightBracket) fun p2 _ => (p2, .ok (.Array elems))

/-- The `key : value` pair loop of `Parser::dictionary`. -/
def dictPairsGo (pe : PFn) : Nat → PSt → List (Expr × Expr) → PSt × POut (List (Expr × Expr))
  | 0, p, _ => (p, .timeout)
  | k + 1, p, acc =>
      pbind (pe p) fun p1 key =>
        pbind (consumeT p1 .Colon) fun p2 _ =>
          pbind (pe p2) fun p3 v =>
            let (m, p4) := matchTokens p3 [.Comma]
            if m then dictPairsGo pe k p4 (acc ++ [(key, v)])
            else (p4, .ok (acc ++ [(key, v)]))

/-- `Parser::dictionary` (after the `dict` keyword). -/
def dictionaryWith (pe : PFn) (fuel : Nat) (p : PSt) : PSt × POut Expr :=
  pbind (consumeT p .LeftBrace) fun p1 _ =>
    pbind (if checkT p1 .RightBrace then (p1, .ok []) else dictPairsGo pe fuel p1 []) fun p2 pairs =>
      pbind (consumeT p2 .RightBrace) fun p3 _ => (p3, .ok (.Dictionary pairs))

/-- `Parser::primary`: the keyword dispatch, identifier-led lookahead, and
literal forms, in source order.  `pe` is the full expression parser (one
nesting level down), `prim` the bare `primary` (used by `await`). -/
def primaryCore (pe prim : PFn) (fuel : Nat) (p : PSt) : PSt × POut Expr :=
  let (mTry, pA) := matchTokens p [.Try]
  if mTry then tryStatementWith pe fuel pA else
  let (mLb, pB) := matchTokens pA [.LeftBrace]
  if mLb then blockWith pe fuel pB else
  let (mClass, pC) := matchTokens pB [.Class]
  if mClass then classDeclarationWith pe fuel pC else
  let (mFun, pD) := matchTokens pC [.Fun]
  if mFun then functionDeclarationWith pe fuel pD else
  let (mRet, pE) := matchTokens pD [.Return]
  if mRet then returnStatementWith pe pE else
  let (mVar, pF) := matchTokens pE [.Var]
  if mVar then varDeclarationWith pe pF else
  let (mImp, pG) := matchTokens pF [.Import]
  if mImp then importStatementWith pG else
  let (mIf, pH) := matchTokens pG [.If]
  if mIf then ifStatementWith pe fuel pH else
  let (mWhile, pI) := matchTokens pH [.While]
  if mWhile then whileStatementWith pe pI else
  let (mFor, pJ) := matchTokens pI [.For]
  if mFor then forStatementWith pe pJ else
  let (mNew, pK) := matchTokens pJ [.New]
  if mNew then classInstantiationWith pe fuel pK else
  let (mAsync, pL) := matchTokens pK [.Async]
  if mAsync then asyncFunctionDeclarationWith pe fuel pL else
  let (mAwait, pM) := matchTokens pL [.Await]
  if mAwait then awaitStatementWith prim pM else
  let (mIdent, pN) := matchTokens pM [.IDENTIfIER]
  if mIdent then
    (if checkT pN .LeftBracket then arrayDictAccessWith pe pN
     else if checkT pN .LeftParen then callWith pe fuel pN
     else if checkT pN .Dot then instanceOrGetOrSetWith pe fuel pN
     else
       match assignmentWith pe pN with
       | (pO, .ok e) => (pO, .ok e)
       | (pO, .err _) => (pO, .ok (.Variable (previousT pO)))
       | (pO, .timeout) => (pO, .timeout))
  else
  let (mLp, pP) := matchTokens pN [.LeftParen]
  if mLp then
    pbind (pe pP) fun pQ e =>
      pbind (consumeT pQ .RightParen) fun pR _ => (pR, .ok (.Grouping e))
  else
  let (mFalse, pS) := matchTokens pP [.False]
  if mFalse then (pS, .ok (.Literal (previousT pS) "false")) else
  let (mTrue, pT) := matchTokens pS [.True]
  if mTrue then (pT, .ok (.Literal (previousT pT) "true")) else
  let (mNil, pU) := matchTokens pT [.Nil]
  if mNil then (pU, .ok (.Literal (previousT pU) "nil")) else
  let (mNum, pV) := matchTokens pU [.Number, .STRING]
  if mNum then
    (pV, .ok (.Literal (previousT pV) (((previousT pV).literal).getD "null")))
  else
  let (mLbk, pW) := matchTokens pV [.LeftBracket]
  if mLbk then arrayLiteralWith pe fuel pW else
  let (mDict, pX) := matchTokens pW [.Dict]
  if mDict then dictionaryWith pe fuel pX else
  let (mSemi, pY) := matchTokens pX [.Semicolon]
  if mSemi then (pY, .ok .Nil)
  else (pY, .err (.ExpectExpression (peekT pY).lexeme (peekT pY).line))

/-- `Parser::primary`, fuelled: each nesting level re-enters the expression
ladder one fuel lower. -/
def primaryF : Nat → PFn
  | 0 => fun p => (p, .timeout)
  | fu + 1 => fun p => primaryCore (exprWith (primaryF fu) fu) (primaryF fu) fu p

/-- The statement loop of `Parser::parse`: expressions until `Eof`, each
paired with the line of the token that follows it. -/
def parseGo (pe : PFn) : Nat → PSt → List (Expr × Nat) → PSt × POut (List (Expr × Nat))
  | 0, p, _ => (p, .timeout)
  | k + 1, p, acc =>
      if isAtEnd p then (p, .ok acc)
      else
        match pe p with
        | (p1, .ok e) => parseGo pe k p1 (acc ++ [(e, (peekT p1).line)])
        | (p1, .err e1) => (p1, .err e1)
        | (p1, .timeout) => (p1, .timeout)

/-- `Parser::parse` on a token vector. -/
def parse (fuel : Nat) (tokens : List Token) : POut (List (Expr × Nat)) :=
  (parseGo (exprWith (primaryF fuel) fuel) fuel { prev := eofToken, rest := tokens } []).2

/-! ### Token streams for the parser claims -/

/-- `(`. -/
def lparenTok : Token := opTok .LeftParen "("

/-- `)`. -/
def rparenTok : Token := opTok .RightParen ")"

/-- `,`. -/
def commaTok : Token := opTok .Comma ","

/-- Opening brace. -/
def lbraceTok : Token := opTok .LeftBrace "\x7b"

/-- Closing brace. -/
def rbraceTok : Token := opTok .RightBrace "\x7d"

/-- The literal `1` as the tokenizer emits it. -/
def oneTok : Token := { token_type := .Number, lexeme := "1", literal := some "1.0", line := 1 }

/-- `k` further `, 1` argument tokens. -/
def commaOnes : Nat → List Token
  | 0 => []
  | k + 1 => commaTok :: oneTok :: commaOnes k

/-- The token stream of `f(1, 1, ..., 1)` with `n ≥ 1` arguments. -/
def mkCallTokens (n : Nat) : List Token :=
  [identTok "f", lparenTok, oneTok] ++ commaOnes (n - 1) ++ [rparenTok, eofToken]

/-- `k` further `, p` parameter tokens. -/
def commaParams : Nat → List Token
  | 0 => []
  | k + 1 => commaTok :: identTok "p" :: commaParams k

/-- The token stream of `fun g(p, ..., p) { }` with `n ≥ 1` parameters. -/
def mkFunTokens (n : Nat) : List Token :=
  [opTok .Fun "fun", identTok "g", lparenTok, identTok "p"] ++ commaParams (n - 1) ++
    [rparenTok, lbraceTok, rbraceTok, eofToken]

/-- Argument count of the first parsed statement, when it is a call. -/
def firstCallArgCount : POut (List (Expr × Nat)) → Option Nat
  | .ok ((.Call _ _ args, _) :: _) => some args.length
  | _ => none

/-- Parameter count of the first parsed statement, when it is a function
declaration. -/
def firstFunParamCount : POut (List (Expr × Nat)) → Option Nat
  | .ok ((.Function _ params _, _) :: _) => some params.length
  | _ => none

/-- Is the parse result an `InvalidParamsCount` failure? -/
def isInvalidParamsErr : POut (List (Expr × Nat)) → Bool
  | .err (.InvalidParametsCount _) => true
  | _ => false

/-- C1: a top-level bare block containing a `return`. -/
def c1topProg : List (Expr × Nat) := [(.Block [returnE (numLit "5")], 1)]

/-- Lookup of a name in the own bindings of heap node `i`. -/
def envValueAt (st : St) (i : Nat) (name : String) : Option Value :=
  match getEnv st.envs i with
  | some n => aget n.values name
  | none => none

/-- C5: the class call executed through the (unreachable from `evaluate`)
`execute_call` class branch, with `_construct` present. -/
def c5run : St × Out Value :=
  execCallWith (evaluate 20) c5st none (.Class "C" c5methods) [.Number 7]

/-- C2 witness input: a two-level chain with no modules or natives. -/
def twoLevelEnv : BEnv :=
  .mk [("z", .Number 3)] (some (.mk [("w", .Number 4)] none [] [])) [] []

/-! ## Theorems -/

/-- Helper for C1: the statement loop of `execute_block` converts every
`Return` pseudo-error it meets into an `ok` result, so no outcome of the
loop is a `Return` error — for any statement evaluator. -/
theorem execBlockGo_no_return (ev : EvalF) :
    ∀ (stmts : List Expr) (st : St) (res : Value) (prev : Nat),
      (execBlockGo ev st stmts res prev).2.isReturnUnwind = false := by
  intro stmts
  induction stmts with
  | nil => intro st res prev; rfl
  | cons s rest ih =>
      intro st res prev
      rcases h : ev st s with ⟨st1, r⟩
      rcases r with v | k | _ | _ <;> simp only [execBlockGo, h]
      · exact ih st1 v prev
      · cases k <;> rfl
      · rfl
      · rfl

/-- Claim C1 (counterexample): in `fun f() { { return 1 } 2 }`, the call
`f()` evaluates to `2`, not `1`: the `return` inside the nested block is
converted by that inner block and does not unwind to the enclosing function
call, contradicting the claim that a `return` unwinds (exactly) to the
enclosing call. -/
theorem c1_return_scope_counterexample :
    (interpretProgram 100 c1prog).2 = .ok (.Number 2) ∧
    (interpretProgram 100 c1prog).2 ≠ .ok (.Number 1) := by
  refine ⟨rfl, fun h => ?_⟩
  have h2 : Out.ok (Value.Number 2) = Out.ok (Value.Number 1) := h
  simp only [Out.ok.injEq, Value.Number.injEq] at h2
  norm_num at h2

/-- Claim C1 (amended): `execute_block` converts `ReturnUnwind` into the
block's own value at every block frame, so no block evaluation — in
particular no function-body block, hence no call — ever yields a `Return`
pseudo-error; but the conversion happens at the innermost enclosing block,
not at the call dispatcher: a `return` in a nested block merely ends that
block (the call `f()` of `c1prog` yields `2`), and even a bare top-level
block swallows its `return` (`c1topProg` yields `5`). -/
theorem c1_return_converted_at_innermost_block :
    (∀ (ev : EvalF) (st : St) (stmts : List Expr) (envId : Nat),
        (execBlockWith ev st stmts envId).2.isReturnUnwind = false) ∧
    (interpretProgram 100 c1prog).2 = .ok (.Number 2) ∧
    (interpretProgram 100 c1topProg).2 = .ok (.Number 5) := by
  refine ⟨?_, rfl, rfl⟩
  intro ev st stmts envId
  exact execBlockGo_no_return ev stmts _ _ _

/-- Helper for C2: on a chain with no modules and no natives anywhere,
`Environment::get` coincides with the plain innermost-outward walk over own
bindings. -/
theorem benv_plain_get_eq :
    ∀ (e : BEnv) (n : String), e.plainChain = true → e.get n = specLexicalGet e n
  | .mk vals encl nats mods, n, h => by
      cases encl with
      | none =>
          rw [BEnv.plainChain.eq_2] at h
          simp only [Bool.and_eq_true] at h
          obtain ⟨⟨hn, hm⟩, _⟩ := h
          obtain rfl : mods = [] := by
            cases mods with
            | nil => rfl
            | cons a l => simp [List.isEmpty] at hm
          obtain rfl : nats = [] := by
            cases nats with
            | nil => rfl
            | cons a l => simp [List.isEmpty] at hn
          rw [BEnv.get.eq_2, specLexicalGet.eq_2]
          simp only [benvModScan, aget]
      | some e2 =>
          rw [BEnv.plainChain.eq_1] at h
          simp only [Bool.and_eq_true] at h
          obtain ⟨⟨hn, hm⟩, he⟩ := h
          obtain rfl : mods = [] := by
            cases mods with
            | nil => rfl
            | cons a l => simp [List.isEmpty] at hm
          obtain rfl : nats = [] := by
            cases nats with
            | nil => rfl
            | cons a l => simp [List.isEmpty] at hn
          rw [BEnv.get.eq_1, specLexicalGet.eq_1]
          simp only [benvModScan, aget]
          cases hv : aget vals n with
          | some v => simp [hv]
          | none =>
              simp only [hv]
              exact benv_plain_get_eq e2 n he

/-- Claim C2 (counterexample): in an environment whose own bindings contain
`x ↦ 1` but which has a registered module binding `x ↦ 2` at top level,
`Environment::get` returns the module's value — the module registry is
consulted before the node's own bindings, so a name bound in the current
scope IS shadowed by a module's top-level binding. -/
theorem c2_module_shadows_local_counterexample :
    BEnv.get c2env "x" = some (.Number 2) ∧
    aget (BEnv.values c2env) "x" = some (.Number 1) :=
  ⟨rfl, rfl⟩

/-- Claim C2 (amended): at every node, lookup consults the registered
modules' top levels first, then the node's native table, then the node's own
bindings, and only then recurses to the enclosing node.  Consequently (a) on
chains with no modules and no natives anywhere, lookup is exactly the plain
innermost-outward lexical walk, and (b) a module's top-level binding wins
even against a binding in the very scope where the module is registered. -/
theorem c2_lookup_module_first_then_lexical :
    (∀ (e : BEnv) (n : String), e.plainChain = true → e.get n = specLexicalGet e n) ∧
    (∀ (vals : List (String × Value)) (encl : Option BEnv) (nats : List (String × Nat))
        (mn : String) (me : BEnv) (n : String) (v : Value),
        aget me.values n = some v →
        BEnv.get (.mk vals encl nats [(mn, me)]) n = some v) := by
  constructor
  · exact benv_plain_get_eq
  · intro vals encl nats mn me n v h
    have hscan : benvModScan [(mn, me)] n = some v := by
      rw [benvModScan, h]
    cases encl with
    | none => rw [BEnv.get.eq_2, hscan]
    | some e2 => rw [BEnv.get.eq_1, hscan]

/-- Witness for C2's amended theorem: both parts applied at concrete
environments. -/
theorem c2_lookup_witness :
    BEnv.get twoLevelEnv "w" = specLexicalGet twoLevelEnv "w" ∧
    BEnv.get (.mk [("x", .Number 1)] none [] [("m", c2moduleEnv)]) "x" = some (.Number 2) :=
  ⟨c2_lookup_module_first_then_lexical.1 twoLevelEnv "w" rfl,
   c2_lookup_module_first_then_lexical.2 [("x", .Number 1)] none [] "m" c2moduleEnv "x"
     (.Number 2) rfl⟩

/-- Claim C7 (counterexample): after the block
`{ var y = 5; return 1 }` completes through the `Return`-conversion path,
the top-level read of `y` still succeeds (the program evaluates to `5`), so
the block's child environment is still the current environment — the
previous environment is NOT restored on this exit path. -/
theorem c7_env_restore_counterexample :
    (interpretProgram 100 c7retProg).2 = .ok (.Number 5) ∧
    (interpretProgram 100 c7retProg).2 ≠ .err (.UndefinedVariable 2 "y") := by
  refine ⟨rfl, fun h => ?_⟩
  exact Out.noConfusion (h.symm.trans (rfl : (interpretProgram 100 c7retProg).2 = .ok (.Number 5)))

/-- Claim C7 (amended): `execute_block` restores the previous environment
only on normal completion of the statement list; on the `Return`-conversion
path (and on error propagation) the child environment remains current.
Concretely: after `{ var y = 5 }` the subsequent `y` is an undefined
variable (environment restored), while after `{ var y = 5; return 1 }` the
subsequent `y` still resolves to `5` (environment leaked). -/
theorem c7_env_restored_only_on_normal_completion :
    (interpretProgram 100 c7normProg).2 = .err (.UndefinedVariable 2 "y") ∧
    (interpretProgram 100 c7retProg).2 = .ok (.Number 5) :=
  ⟨rfl, rfl⟩

/-- Claim C3 (counterexample): the program `[1] == [1]` evaluates to
`false`, not `true`: the `==` operator routes through
`Interpreter::is_equal`, whose catch-all arm makes any two arrays unequal,
elementwise-equal or not. -/
theorem c3_array_eq_counterexample :
    (interpretProgram 10 c3prog).2 = .ok (.Boolean false) ∧
    (interpretProgram 10 c3prog).2 ≠ .ok (.Boolean true) := by
  refine ⟨rfl, fun h => ?_⟩
  have h2 : Out.ok (Value.Boolean false) = Out.ok (Value.Boolean true) := h
  simp only [Out.ok.injEq, Value.Boolean.injEq] at h2
  exact Bool.noConfusion h2

/-- Claim C3 (amended): the language's `==` evaluates both operands and
returns `Boolean (is_equal l r)`, and `is_equal` compares only primitives —
numbers within `f64::EPSILON`, strings, booleans and nil — while every
array, dictionary, class or instance pair is unequal.  The per-kind
structural comparison the specification describes (elementwise arrays, etc.)
lives only in the host-level `PartialEq` (`valueEq`), which does equate
elementwise-equal arrays. -/
theorem c3_operator_eq_primitives_only :
    (∀ (f : Nat) (st st1 st2 : St) (l r : Expr) (lv rv : Value) (op : Token),
        op.token_type = .EqualEqual →
        evaluate f st l = (st1, .ok lv) →
        evaluate f st1 r = (st2, .ok rv) →
        evaluate (f + 1) st (.Binary l op r) = (st2, .ok (.Boolean (is_equal lv rv)))) ∧
    (∀ xs ys : List Value, is_equal (.Array xs) (.Array ys) = false) ∧
    (∀ xs ys : List (String × Value), is_equal (.Dictionary xs) (.Dictionary ys) = false) ∧
    (∀ (n1 : String) (m1 : List (String × Value)) (n2 : String) (m2 : List (String × Value)),
        is_equal (.Class n1 m1) (.Class n2 m2) = false) ∧
    (∀ (n1 : String) (i1 : Nat) (n2 : String) (i2 : Nat),
        is_equal (.Instance n1 i1) (.Instance n2 i2) = false) ∧
    (∀ a b : ℚ, is_equal (.Number a) (.Number b) = decide (|a - b| < EPSILON)) ∧
    (∀ s t : String, is_equal (.String s) (.String t) = decide (s = t)) ∧
    valueEq 10 [] (.Array [.Number 1]) (.Array [.Number 1]) = some true := by
  refine ⟨?_, fun _ _ => rfl, fun _ _ => rfl, fun _ _ _ _ => rfl, fun _ _ _ _ => rfl,
    fun _ _ => rfl, fun _ _ => rfl, rfl⟩
  intro f st st1 st2 l r lv rv op hop h1 h2
  simp only [evaluate, h1, h2, hop, binDispatch, equalV]

/-- Witness for C3's amended theorem: `1 == 2` through the evaluator. -/
theorem c3_operator_eq_witness :
    evaluate 2 initSt (.Binary (numLit "1") (opTok .EqualEqual "==") (numLit "2")) =
      (initSt, .ok (.Boolean (is_equal (.Number 1) (.Number 2)))) :=
  c3_operator_eq_primitives_only.1 1 initSt initSt initSt (numLit "1") (numLit "2")
    (.Number 1) (.Number 2) (opTok .EqualEqual "==") rfl rfl rfl

/-- Claim C4 (counterexample): after `var a = [1,2]; var b = a; a[1+...`
— concretely `a[0] = 9` — the read `b[0]` still yields `1`: element
assignment mutates a private copy and rebinds only `a`, so arrays are not
shared by reference. -/
theorem c4_alias_counterexample :
    (interpretProgram 100 c4arrProg).2 = .ok (.Number 1) ∧
    (interpretProgram 100 c4arrProg).2 ≠ .ok (.Number 9) := by
  refine ⟨rfl, fun h => ?_⟩
  have h2 : Out.ok (Value.Number 1) = Out.ok (Value.Number 9) := h
  simp only [Out.ok.injEq, Value.Number.injEq] at h2
  norm_num at h2

/-- Claim C4 (amended): arrays and dictionaries have value semantics — an
element assignment clones the aggregate, mutates the clone and rebinds the
assigned variable, so it is visible through that variable but not through
any other binding of the same aggregate — while instances are shared by
reference: two bindings carrying the same member-environment handle observe
each other's field mutations (performed here through methods). -/
theorem c4_aggregates_copied_instances_shared :
    (interpretProgram 100 c4arrSelfProg).2 = .ok (.Number 9) ∧
    (interpretProgram 100 c4arrProg).2 = .ok (.Number 1) ∧
    (interpretProgram 100 c4dictProg).2 = .ok (.Number 1) ∧
    (interpret 100 aliasSt c4instProg).2 = .ok (.Number 9) :=
  ⟨rfl, rfl, rfl, rfl⟩

/-- Claim C5 (counterexample): `new C()` on a class with a method `m` (and
no `_construct`) does not produce an instance at all: the call dispatcher in
`Interpreter::evaluate` has no arm for `Value::Class`, so the class call
falls into the catch-all and fails with `InvalidCall(0)`. -/
theorem c5_class_call_counterexample :
    (interpretProgram 100 c5prog).2 = .err (.InvalidCall 0) :=
  rfl

/-- Claim C5 (amended): a class call never constructs an instance —
`evaluate`'s receiverless call dispatcher maps any `Class` callee to
`InvalidCall(0)`, leaving `execute_call`'s class branch unreachable.  In
that branch as written, everything — parameter binding, the `this` binding,
construct-body execution AND the method-installation loop — is guarded by
the presence of `_construct`: without it the instance's environment is left
empty; with it, `_construct` runs with `this` bound to the instance before
the instance is returned, and every method is installed afterwards. -/
theorem c5_class_call_unreachable :
    (∀ (f : Nat) (st st1 st2 : St) (argsE : List Expr) (ce : Expr) (argv : List Value)
        (cname : String) (methods : List (String × Value)),
        evalListWith (evaluate f) st argsE = (st1, .ok argv) →
        evaluate f st1 ce = (st2, .ok (.Class cname methods)) →
        evaluate (f + 1) st (.Call none ce argsE) = (st2, .err (.InvalidCall 0))) ∧
    (∀ (ev : EvalF) (st : St) (cname : String) (methods : List (String × Value))
        (args : List Value),
        aget methods "_construct" = none →
        execCallWith ev st none (.Class cname methods) args =
          ({ st with envs := st.envs ++
              [{ values := [], enclosing := some st.current, natives := [], modules := [] }] },
           .ok (.Instance cname st.envs.length))) ∧
    c5run.2 = .ok (.Instance "C" 1) ∧
    envValueAt c5run.1 0 "g" = some (.Number 7) ∧
    envValueAt c5run.1 1 "this" = some (.Instance "C" 1) ∧
    envValueAt c5run.1 1 "m" = some (.Function "m" [] (.Block [returnE (numLit "1")])) := by
  refine ⟨?_, ?_, rfl, rfl, rfl, rfl⟩
  · intro f st st1 st2 argsE ce argv cname methods hA hC
    simp only [evaluate, hA, hC]
  · intro ev st cname methods args h
    simp only [execCallWith, pushEnv, h]

/-- Witness for C5's amended theorem: the construct-free branch applied at a
concrete class, and the dispatcher part at a concrete call. -/
theorem c5_class_call_witness :
    execCallWith (evaluate 1) initSt none (.Class "D" [("m", .Function "m" [] (.Block []))]) [] =
      ({ initSt with envs := initSt.envs ++
          [{ values := [], enclosing := some 0, natives := [], modules := [] }] },
       .ok (.Instance "D" 1)) :=
  c5_class_call_unreachable.2.1 (evaluate 1) initSt "D"
    [("m", .Function "m" [] (.Block []))] [] rfl

/-- Claim C6 (counterexample): reading `a[-1]` from `a = [10, 20, 30]`
yields `10`, not an `InvalidGet` error: the only guard is
`index < values.len() as f64`, which a negative index passes, and the
`as usize` cast saturates it to `0`. -/
theorem c6_negative_index_counterexample :
    (interpretProgram 100 c6getNegProg).2 = .ok (.Number 10) ∧
    (interpretProgram 100 c6getNegProg).2 ≠ .err (.InvalidGet 2) := by
  refine ⟨rfl, fun h => ?_⟩
  exact Out.noConfusion
    ((rfl : (interpretProgram 100 c6getNegProg).2 = .ok (.Number 10)).symm.trans h)

/-- Claim C6 (amended): for an array receiver, only indices `≥ length` are
rejected (`InvalidGet`); an in-range non-negative index returns the element
at its floor; a negative index is NOT rejected — it passes the guard, is
cast (saturating) to `0`, and reads element 0 of a non-empty array, while on
an empty array the subsequent `values[0]` is a Rust index panic.  Element
assignment behaves alike: `a[-1] = v` writes element 0, index `length` is
`InvalidSet`, and an in-bounds write replaces the element. -/
theorem c6_array_index_semantics :
    (∀ (f : Nat) (st st1 st2 : St) (obj idx : Expr) (elems : List Value) (q : ℚ),
        evaluate f st obj = (st1, .ok (.Array elems)) →
        evaluate f st1 idx = (st2, .ok (.Number q)) →
        (((elems.length : ℚ) ≤ q →
            evaluate (f + 1) st (.Get obj idx) = (st2, .err (.InvalidGet st2.line))) ∧
         (0 ≤ q → q < (elems.length : ℚ) →
            evaluate (f + 1) st (.Get obj idx) =
              (st2, .ok ((elems.get? (f64ToUsize q)).getD .Nil))) ∧
         (∀ (hd : Value) (tl : List Value), elems = hd :: tl → q < 0 →
            evaluate (f + 1) st (.Get obj idx) = (st2, .ok hd)) ∧
         (elems = [] → q < 0 →
            evaluate (f + 1) st (.Get obj idx) = (st2, .crash)))) ∧
    (interpretProgram 100 c6setNegProg).2 = .ok (.Number 99) ∧
    (interpretProgram 100 c6setOobProg).2 = .err (.InvalidSet 2) ∧
    (interpretProgram 100 c6setOkProg).2 = .ok (.Number 5) := by
  refine ⟨?_, rfl, rfl, rfl⟩
  intro f st st1 st2 obj idx elems q h1 h2
  have hbase : evaluate (f + 1) st (.Get obj idx) =
      getDispatch st2 (.Array elems) (.Number q) := by
    simp only [evaluate, h1, h2]
  refine ⟨?_, ?_, ?_, ?_⟩
  · intro hge
    rw [hbase]
    simp only [getDispatch]
    rw [if_neg (not_lt.mpr hge)]
  · intro h0 hlt
    rw [hbase]
    simp only [getDispatch]
    rw [if_pos hlt]
    have hfl0 : 0 ≤ ⌊q⌋ := Int.floor_nonneg.mpr h0
    have hfl : ⌊q⌋ < (elems.length : ℤ) := by
      rw [Int.floor_lt]
      exact_mod_cast hlt
    have hi : f64ToUsize q < elems.length := by
      unfold f64ToUsize
      rw [if_neg (not_lt.mpr h0)]
      omega
    obtain ⟨v, hv⟩ : ∃ v, elems.get? (f64ToUsize q) = some v := by
      cases hg : elems.get? (f64ToUsize q) with
      | some v => exact ⟨v, rfl⟩
      | none =>
          rw [List.get?_eq_none] at hg
          omega
    rw [hv]
    rfl
  · rintro hd tl rfl hneg
    rw [hbase]
    simp only [getDispatch]
    have hq : q < (((hd :: tl).length : ℕ) : ℚ) :=
      lt_of_lt_of_le hneg (by positivity)
    rw [if_pos hq]
    have hz : f64ToUsize q = 0 := by
      unfold f64ToUsize
      rw [if_pos hneg]
    rw [hz]
    rfl
  · rintro rfl hneg
    rw [hbase]
    simp only [getDispatch]
    have hq : q < ((([] : List Value).length : ℕ) : ℚ) := by
      simpa using hneg
    rw [if_pos hq]
    have hz : f64ToUsize q = 0 := by
      unfold f64ToUsize
      rw [if_pos hneg]
    rw [hz]
    rfl

/-- Witness for C6's amended theorem: the in-bounds part applied at
`[10, 20][0]`. -/
theorem c6_array_index_witness :
    evaluate 3 initSt (.Get (.Array [numLit "10", numLit "20"]) (numLit "0")) =
      (initSt, .ok ((([.Number 10, .Number 20] : List Value).get? (f64ToUsize 0)).getD .Nil)) :=
  ((c6_array_index_semantics.1 2 initSt initSt initSt (.Array [numLit "10", numLit "20"])
      (numLit "0") [.Number 10, .Number 20] 0 rfl rfl).2.1) (by norm_num) (by norm_num)

/-- Claim C8 (counterexample): after `async fun g() { return 42 }
var p = g(); await p`, the await returns `42` but the promise is still in
the `Pending` variant — the terminal value is never written back, so the
promise does not transition to `Fulfilled` before (or after) the value is
returned. -/
theorem c8_promise_state_counterexample :
    (interpretProgram 100 c8prog).2 = .ok (.Number 42) ∧
    (interpretProgram 100 c8prog).1.promises.map PromState.isPending = [true] :=
  ⟨rfl, rfl⟩

/-- Claim C8 (amended): `await` of a pending promise drives the stored
future to completion and returns its result, but never replaces the promise
state — the promise stays `Pending`, and a second `await` of the same
promise polls a completed future (a Rust panic, `crash`).  The remaining
claimed behaviours hold: a non-promise operand is `InvalidCall`; an
(otherwise unreachable) `Fulfilled` promise returns its stored value with
the state untouched; a `Rejected` one raises `PromiseRejected`. -/
theorem c8_await_leaves_promise_pending :
    (interpretProgram 100 c8prog).2 = .ok (.Number 42) ∧
    (interpretProgram 100 c8prog).1.promises.map PromState.isPending = [true] ∧
    (interpretProgram 100 c8doubleProg).2 = .crash ∧
    (interpretProgram 100 c8nonPromiseProg).2 = .err (.InvalidCall 0) ∧
    (evaluate 10 c8fulfilledSt (.Await (varE "p"))).2 = .ok (.Number 7) ∧
    (evaluate 10 c8fulfilledSt (.Await (varE "p"))).1.promises.map PromState.isPending
      = [false] ∧
    (evaluate 10 c8rejectedSt (.Await (varE "p"))).2 = .err (.PromiseRejected 0) :=
  ⟨rfl, rfl, rfl, rfl, rfl, rfl, rfl⟩

set_option maxHeartbeats 4000000 in
set_option maxRecDepth 8000 in
/-- Claim C9 (counterexample): the token stream of `f(1, 1, ..., 1)` with
256 arguments parses successfully into a call with 256 arguments —
`Parser::arguments` has no entry limit and never raises
`InvalidParamsCount`. -/
theorem c9_argument_limit_counterexample :
    firstCallArgCount (parse 300 (mkCallTokens 256)) = some 256 ∧
    isInvalidParamsErr (parse 300 (mkCallTokens 256)) = false :=
  ⟨rfl, rfl⟩

set_option maxHeartbeats 4000000 in
set_option maxRecDepth 8000 in
/-- Claim C9 (amended): the 255-entry limit exists only for function (and
async function) parameter lists — 256 parameters fail with
`InvalidParamsCount` while 255 parse — whereas comma-separated argument
lists are unbounded (here, 300 entries parse). -/
theorem c9_params_limited_arguments_unlimited :
    isInvalidParamsErr (parse 300 (mkFunTokens 256)) = true ∧
    firstFunParamCount (parse 300 (mkFunTokens 255)) = some 255 ∧
    firstCallArgCount (parse 400 (mkCallTokens 300)) = some 300 :=
  ⟨rfl, rfl, rfl⟩

/-- Claim C10: a `while` whose condition is initially falsy, and a `for`
whose condition is falsy before the first iteration, never evaluate their
body and yield `Nil` as the loop expression's value. -/
theorem c10_loop_falsy_condition_yields_nil :
    (∀ (f : Nat) (st st1 : St) (cond body : Expr) (v : Value),
        evaluate f st cond = (st1, .ok v) →
        is_truthy v = false →
        evaluate (f + 1) st (.While cond body) = (st1, .ok .Nil)) ∧
    (∀ (f : Nat) (st st1 st2 : St) (init cond inc body : Expr) (v0 v : Value),
        evaluate f st init = (st1, .ok v0) →
        evaluate f st1 cond = (st2, .ok v) →
        is_truthy v = false →
        evaluate (f + 1) st (.For init cond inc body) = (st2, .ok .Nil)) := by
  constructor
  · intro f st st1 cond body v h1 ht
    simp only [evaluate, h1]
    cases f with
    | zero => simp [whileGoWith, ht]
    | succ k => simp [whileGoWith, ht]
  · intro f st st1 st2 init cond inc body v0 v h1 h2 ht
    simp only [evaluate, h1, h2]
    cases f with
    | zero => simp [forGoWith, ht]
    | succ k => simp [forGoWith, ht]

/-- Witness for C10: `while (false) 1` and `for (; false ;) 1` both
evaluate to `Nil`. -/
theorem c10_loop_witness :
    evaluate 2 initSt (.While falseLit (numLit "1")) = (initSt, .ok .Nil) ∧
    evaluate 2 initSt (.For .Nil falseLit .Nil (numLit "1")) = (initSt, .ok .Nil) :=
  ⟨c10_loop_falsy_condition_yields_nil.1 1 initSt initSt falseLit (numLit "1")
     (.Boolean false) rfl rfl,
   c10_loop_falsy_condition_yields_nil.2 1 initSt initSt initSt .Nil falseLit .Nil
     (numLit "1") .Nil (.Boolean false) rfl rfl rfl⟩

end Alpha
